import Mathlib

/-!
# A shallow embedding of the dbCheck batch-hashing engine

This file embeds the batch-hashing engine of the replica-set consistency
checker (`DbCheckHasher::hashForCollectionCheck`,
`DbCheckHasher::hashForExtraIndexKeysCheck`,
`DbCheckHasher::validateMissingKeys`, `DbCheckHasher::_canHashForCollectionCheck`
and the secondary-side batch verifier `dbCheckBatchOnSecondary`) as pure Lean
functions, and proves properties of the embedded code.

Modelling conventions:
* Raw byte strings are `List Nat` (an abstract byte alphabet; only ordering and
  equality of byte strings matter to the embedded code).
* The MD5 accumulator is modelled by the exact stream of bytes the code feeds
  to `md5_append`, in order.  The MD5 compression function itself is an
  external library; two digests are bit-identical iff the appended streams are
  equal, so digest equality is modelled as stream equality.
* The storage cursors are external collaborators.  The `_id`-index scan of a
  range is an ordered list of `(objId, recordId)` pairs; the record store is a
  partial map from record ids to records; a secondary index is an ordered list
  of keystring entries.  A sorted-data cursor with a seek key and an inclusive
  end position yields the entries from the first one at-or-after the seek key
  through the last one at-or-before the end key.
* `validateBSON` is an external collaborator: its verdict on a record's bytes
  (for the validation mode fixed for the run) is carried as a field of the
  record.
* Cooperative interruption (`checkForInterruptNoAssert`) and the deadline
  clock (`Date_t::now() > deadline`) are oracles indexed by the loop
  iteration at which they are consulted.
* Health-log emission is modelled by returning the ordered list of emitted
  entries; exceptions (`iassert`/`uassert`) are modelled by an explicit
  outcome value that the verifier's `try`/`catch` inspects.
-/

set_option maxHeartbeats 1000000

namespace DbCheck

/-- Abstract raw bytes (a keystring, a BSON document's stored bytes, ...). -/
abbrev Bytes := List Nat

/-- A record id (`RecordId`); the internal physical row identifier. -/
abbrev RecordId := Nat

/-- Strict lexicographic order on byte strings; `bytesLt a b = true` models
`key_string::compare(a, b) < 0` for the stored byte forms. -/
def bytesLt : Bytes → Bytes → Bool
  | [], [] => false
  | [], _ :: _ => true
  | _ :: _, [] => false
  | a :: as, b :: bs => if a < b then true else if b < a then false else bytesLt as bs

/-- `SeverityEnum` of a health log entry. -/
inductive SeverityEnum
  | info
  | warning
  | error
  deriving DecidableEq

/-- The error codes the embedded code distinguishes. -/
inductive ErrorCodes
  | keyNotFound
  | noSuchKey
  | indexNotFound
  | interrupted
  | nonConformantBSON
  | badValue
  deriving DecidableEq

/-- A `Status`: `none` is `Status::OK()`, `some c` carries an error code. -/
abbrev Status := Option ErrorCodes

/-- Verdict of `validateBSON` on a record's stored bytes, for the validation
mode the run was configured with. -/
inductive BsonValidateRes
  | ok
  | nonConformant
  | invalidBson
  deriving DecidableEq

/-- A stored record: its raw bytes, whether the parsed document has an `_id`
field, and the external `validateBSON` verdict on the bytes. -/
structure Record where
  bytes : Bytes
  hasIdField : Bool
  bsonRes : BsonValidateRes
  deriving DecidableEq

/-- `record.size()` = `currentObj.objsize()`: the byte size of the record. -/
def Record.size (r : Record) : Int := r.bytes.length

/-- `DbCheckValidationModeEnum`. -/
inductive DbCheckValidationModeEnum
  | dataConsistency
  | dataConsistencyAndMissingIndexKeysCheck
  | extraIndexKeysCheck
  deriving DecidableEq

/-- `SecondaryIndexCheckParameters` from the batch descriptor. -/
structure SecondaryIndexCheckParameters where
  validateMode : DbCheckValidationModeEnum
  secondaryIndex : String
  deriving DecidableEq

/-- Whether the hasher's parameters select the
`dataConsistencyAndMissingIndexKeysCheck` mode. -/
def isMissingKeysMode : Option SecondaryIndexCheckParameters → Bool
  | some p =>
    match p.validateMode with
    | DbCheckValidationModeEnum.dataConsistencyAndMissingIndexKeysCheck => true
    | _ => false
  | none => false

/-- One element of `_missingIndexKeys`: the report pushed for an expected index
key that was not found with the document's record id. -/
structure MissingKeyInfo where
  indexName : String
  keyString : Bytes
  expectedRecordId : RecordId
  deriving DecidableEq

/-- The mutable state owned by one `DbCheckHasher` (`HasherState`). `md5` is
the stream of bytes fed to `md5_append` so far. -/
structure HasherState where
  md5 : Bytes
  countDocsSeen : Int
  countKeysSeen : Int
  bytesSeen : Int
  lastKeySeen : Bytes
  nConsecutiveIdenticalIndexKeysSeenAtEnd : Int
  missingIndexKeys : List MissingKeyInfo
  deriving DecidableEq

/-- The state a freshly constructed hasher starts from. -/
def initState : HasherState :=
  { md5 := []
    countDocsSeen := 0
    countKeysSeen := 0
    bytesSeen := 0
    lastKeySeen := []
    nConsecutiveIdenticalIndexKeysSeenAtEnd := 0
    missingIndexKeys := [] }

/-- `DbCheckHasher::countSeen() = docsSeen() + keysSeen()`. -/
def countSeen (st : HasherState) : Int :=
  st.countDocsSeen + st.countKeysSeen

/-- `DbCheckHasher::_canHashForCollectionCheck`, verbatim from the source:
always accept when nothing was seen yet, otherwise reject when the next
object would push `bytesSeen` over `maxBytes` or `countSeen` over
`maxCount`. -/
def canHashForCollectionCheck (maxCount maxBytes : Int) (st : HasherState)
    (objSize : Int) : Bool :=
  if countSeen st = 0 then true
  else if st.bytesSeen + objSize > maxBytes then false
  else if countSeen st + 1 > maxCount then false
  else true

/-- An entry of a secondary index's sorted data: the stored keystring and the
record id (`loc`) it points at. -/
structure SecIndexEntryKS where
  keyString : Bytes
  loc : RecordId
  deriving DecidableEq

/-- Supported/unsupported index access methods (`IndexNames::BTREE`, ...). -/
inductive IndexKindTag
  | btree
  | hashed
  | wildcard
  | text
  | geo
  deriving DecidableEq

/-- A ready secondary index as seen through the index catalog: descriptor
flags, the external key-generation collaborator (`iam->getKeys`, producing the
expected keystrings of a document, without trailing record id), and the
index's sorted data. -/
structure SecIndex where
  indexName : String
  hasPartialFilter : Bool
  filterMatches : Record → Bool
  kindTag : IndexKindTag
  unique : Bool
  keysFor : Record → List Bytes
  entries : List SecIndexEntryKS

/-- `SortedDataInterfaceThrottleCursor::seekForKeyString`: the first entry of
the sorted data at-or-after the probe keystring. -/
def seekForKeyString (entries : List SecIndexEntryKS) (key : Bytes) :
    Option SecIndexEntryKS :=
  entries.find? (fun e => !(bytesLt e.keyString key))

/-- The expected keystrings `iam->getKeys` produces for a document: the base
keys for a unique index, the base keys with the record id appended for a
non-unique index. -/
def expectedKeyStrings (idx : SecIndex) (doc : Record) (rid : RecordId) :
    List Bytes :=
  if idx.unique then idx.keysFor doc
  else (idx.keysFor doc).map (fun k => k ++ [rid])

/-- The body of the inner loop of `validateMissingKeys` for one expected key:
bump `_countKeysSeen`, seek the index, and push a `MissingKeyInfo` when the
entry found is absent or points at a different record id. -/
def checkOneExpectedKey (idx : SecIndex) (rid : RecordId) (st : HasherState)
    (key : Bytes) : HasherState :=
  let st1 := { st with countKeysSeen := st.countKeysSeen + 1 }
  match seekForKeyString idx.entries key with
  | none =>
    { st1 with missingIndexKeys :=
        st1.missingIndexKeys ++ [⟨idx.indexName, key, rid⟩] }
  | some e =>
    if e.loc ≠ rid then
      { st1 with missingIndexKeys :=
          st1.missingIndexKeys ++ [⟨idx.indexName, key, rid⟩] }
    else st1

/-- The body of the outer loop of `validateMissingKeys` for one index: skip a
partial index whose filter excludes the document, skip unsupported access
methods, otherwise check every expected key. -/
def validateOneIndex (doc : Record) (rid : RecordId) (st : HasherState)
    (idx : SecIndex) : HasherState :=
  if idx.hasPartialFilter ∧ ¬ idx.filterMatches doc then st
  else if idx.kindTag ≠ IndexKindTag.btree ∧ idx.kindTag ≠ IndexKindTag.hashed then st
  else (expectedKeyStrings idx doc rid).foldl (checkOneExpectedKey idx rid) st

/-- `DbCheckHasher::validateMissingKeys`: fold over the fetched indexes, then
return a non-OK status exactly when `_missingIndexKeys` is non-empty. -/
def validateMissingKeys (indexes : List SecIndex) (doc : Record)
    (rid : RecordId) (st : HasherState) : HasherState × Status :=
  let st2 := indexes.foldl (validateOneIndex doc rid) st
  (st2, if st2.missingIndexKeys.length > 0 then some ErrorCodes.noSuchKey else none)

/-- What the seek probe of one expected key contributes to the missing-key
report: a report element when the entry found at-or-after the key is absent
or points at a different record id, nothing otherwise. -/
def probeResult (idx : SecIndex) (rid : RecordId) (key : Bytes) :
    List MissingKeyInfo :=
  match seekForKeyString idx.entries key with
  | none => [⟨idx.indexName, key, rid⟩]
  | some e => if e.loc ≠ rid then [⟨idx.indexName, key, rid⟩] else []

/-- The per-index contribution to the missing-key report, stated directly:
the expected keys whose seek probe is absent or mislocated.  Used to
characterise the loop of `validateMissingKeys`. -/
def reportForIndex (doc : Record) (rid : RecordId) (idx : SecIndex) :
    List MissingKeyInfo :=
  if idx.hasPartialFilter ∧ ¬ idx.filterMatches doc then []
  else if idx.kindTag ≠ IndexKindTag.btree ∧ idx.kindTag ≠ IndexKindTag.hashed then []
  else ((expectedKeyStrings idx doc rid).map (probeResult idx rid)).flatten

/-- Modelled from the spec: the spec's own description of the missing-key
report — "append exactly those expected keys for which no entry with the
document's row-identifier exists".  The index-probing code that decides this
in the repository is `validateMissingKeys`; this definition follows the
spec's words instead, for comparison. -/
def specMissingExpectedKeys (idx : SecIndex) (doc : Record) (rid : RecordId) :
    List Bytes :=
  (expectedKeyStrings idx doc rid).filter (fun key =>
    !(idx.entries.any (fun e => e.keyString = key && e.loc = rid)))

/-- The batch descriptor fields the verifier consumes (`DbCheckOplogBatch`). -/
structure BatchEntry where
  expectedMd5 : Bytes
  logBatchToHealthLog : Option Bool
  params : Option SecondaryIndexCheckParameters
  deriving DecidableEq

/-- The health log entries the embedded code can emit, with the data the
claims are about. -/
inductive LogEntry
  | missingRecord (rid : RecordId) (objId : Bytes)
  | malformedDoc (severity : SeverityEnum) (rid : RecordId) (objId : Bytes)
  | missingKeysEntry (rid : RecordId) (objId : Bytes) (report : List MissingKeyInfo)
  | collectionGone
  | indexNotFoundEntry (name : String)
  | recordFetchError
  | batchResult (severity : SeverityEnum) (matched : Bool)
      (count bytes nConsecutive : Int)
  | verifierError (code : ErrorCodes) (context : BatchEntry)
  deriving DecidableEq

/-- The severity each entry is emitted with (`dbCheckErrorHealthLogEntry`
produces Error, `dbCheckWarningHealthLogEntry` Warning, ...). -/
def LogEntry.severityOf : LogEntry → SeverityEnum
  | LogEntry.missingRecord _ _ => SeverityEnum.error
  | LogEntry.malformedDoc s _ _ => s
  | LogEntry.missingKeysEntry _ _ _ => SeverityEnum.error
  | LogEntry.collectionGone => SeverityEnum.info
  | LogEntry.indexNotFoundEntry _ => SeverityEnum.error
  | LogEntry.recordFetchError => SeverityEnum.error
  | LogEntry.batchResult s _ _ _ _ => s
  | LogEntry.verifierError _ _ => SeverityEnum.error

/-- Severity of the malformed-document health log entry: Warning for a
`NonConformantBSON` verdict, Error otherwise. -/
def bsonErrSeverity : BsonValidateRes → SeverityEnum
  | BsonValidateRes.nonConformant => SeverityEnum.warning
  | _ => SeverityEnum.error

/-- One entry produced by the `_id`-index scan: the `_id` keystring and the
record id it points at, in index order. -/
structure IdIndexEntry where
  objId : Bytes
  rid : RecordId
  deriving DecidableEq

/-- How a hashing run ended: normal return of `Status::OK()`, return of a
non-OK `Status`, or an exception escaping (`iassert`/`uassert`). -/
inductive RunOutcome
  | ok
  | errStatus (c : ErrorCodes)
  | thrown (c : ErrorCodes)
  deriving DecidableEq

/-- Result of a collection-check hashing run: final hasher state, emitted
health log entries in order, outcome, and whether the cursor reached EOF. -/
structure CollRun where
  st : HasherState
  logs : List LogEntry
  outcome : RunOutcome
  reachedEof : Bool
  deriving DecidableEq

/-- The state/log update `hashForCollectionCheck` performs for an accepted
item: in missing-keys mode clear `_missingIndexKeys`, run
`validateMissingKeys` and emit its report on a non-OK status; then update
`_lastKeySeen`, the counters and the digest stream. -/
def processAccepted (idxs : List SecIndex) (mkMode : Bool) (e : IdIndexEntry)
    (r : Record) (st : HasherState) : HasherState × List LogEntry :=
  let pair :=
    if mkMode then
      let v := validateMissingKeys idxs r e.rid { st with missingIndexKeys := [] }
      (v.1,
        if v.2.isSome then
          [LogEntry.missingKeysEntry e.rid e.objId v.1.missingIndexKeys]
        else [])
    else (st, ([] : List LogEntry))
  ({ pair.1 with
      lastKeySeen := e.objId
      countDocsSeen := pair.1.countDocsSeen + 1
      bytesSeen := pair.1.bytesSeen + r.size
      md5 := pair.1.md5 ++ r.bytes }, pair.2)

/-- The scan loop of `DbCheckHasher::hashForCollectionCheck` over the
`_id`-index cursor: per item, check for interruption, fetch the record (a
missing record is logged and skipped), in missing-keys mode validate the raw
bytes (a malformed document is logged), fail the batch on a document without
`_id`, stop before an item the ceilings reject, otherwise accept the item and
stop after it if the deadline has passed. -/
def collLoop (fr : RecordId → Option Record) (idxs : List SecIndex)
    (intr dl : Nat → Bool) (params : Option SecondaryIndexCheckParameters)
    (maxCount maxBytes : Int) :
    Nat → List IdIndexEntry → HasherState → List LogEntry → CollRun
  | _, [], st, logs => ⟨st, logs, RunOutcome.ok, true⟩
  | i, e :: rest, st, logs =>
    if intr i then ⟨st, logs, RunOutcome.thrown ErrorCodes.interrupted, false⟩
    else
      match fr e.rid with
      | none =>
        collLoop fr idxs intr dl params maxCount maxBytes (i + 1) rest st
          (logs ++ [LogEntry.missingRecord e.rid e.objId])
      | some r =>
        let mkMode := isMissingKeysMode params
        let logs1 :=
          if mkMode ∧ r.bsonRes ≠ BsonValidateRes.ok then
            logs ++ [LogEntry.malformedDoc (bsonErrSeverity r.bsonRes) e.rid e.objId]
          else logs
        if ¬ r.hasIdField then
          ⟨st, logs1, RunOutcome.errStatus ErrorCodes.noSuchKey, false⟩
        else if ¬ canHashForCollectionCheck maxCount maxBytes st r.size then
          ⟨st, logs1, RunOutcome.ok, false⟩
        else
          let pr := processAccepted idxs mkMode e r st
          if dl i then ⟨pr.1, logs1 ++ pr.2, RunOutcome.ok, false⟩
          else collLoop fr idxs intr dl params maxCount maxBytes (i + 1) rest
            pr.1 (logs1 ++ pr.2)

/-- The `DbCheckHasher` object as constructed: `_maxKey` is the `end` key of
the batch range, plus the resource ceilings and the validation parameters. -/
structure DbCheckHasher where
  maxKey : Bytes
  maxCount : Int
  maxBytes : Int
  params : Option SecondaryIndexCheckParameters

/-- `DbCheckHasher::hashForCollectionCheck`: run the scan loop from the given
state; if the cursor reached EOF, set `_lastKeySeen` to `_maxKey`. -/
def DbCheckHasher.hashForCollectionCheck (h : DbCheckHasher)
    (cursor : List IdIndexEntry) (fr : RecordId → Option Record)
    (idxs : List SecIndex) (intr dl : Nat → Bool) (st0 : HasherState) : CollRun :=
  let rr := collLoop fr idxs intr dl h.params h.maxCount h.maxBytes 0 cursor st0 []
  if rr.reachedEof then { rr with st := { rr.st with lastKeySeen := h.maxKey } }
  else rr

/-- The resource-ceiling invariant the collection scan maintains: counters
are non-negative, at most `max maxCount 1` documents are accepted, and the
accepted bytes stay within `maxBytes` unless a sole first document was
accepted. -/
def CollInv (maxCount maxBytes : Int) (st : HasherState) : Prop :=
  0 ≤ st.countDocsSeen ∧ 0 ≤ st.countKeysSeen ∧
  st.countDocsSeen ≤ max maxCount 1 ∧
  (st.countDocsSeen ≤ 1 ∨ st.bytesSeen ≤ maxBytes)

/-- The bytes of the records backing the cursor's items, in cursor order
(items whose record is absent contribute nothing). -/
def cursorRecordBytes (fr : RecordId → Option Record) :
    List IdIndexEntry → List Bytes
  | [] => []
  | e :: rest =>
    match fr e.rid with
    | none => cursorRecordBytes fr rest
    | some r => r.bytes :: cursorRecordBytes fr rest

/-- An entry of the checked secondary index for the extra-keys scan: the
keystring without its trailing record id, and the record id. -/
structure IxKsEntry where
  key : Bytes
  rid : RecordId
  deriving DecidableEq

/-- Result of an extra-index-keys hashing run. -/
structure ExtraRun where
  st : HasherState
  outcome : RunOutcome
  deriving DecidableEq

/-- The per-key state update of the extra-keys loop: fold the keystring
without its record id into the digest, count it, and remember the full
keystring as `_lastKeySeen`. -/
def extraStep (e : IxKsEntry) (st : HasherState) : HasherState :=
  { st with
    bytesSeen := st.bytesSeen + e.key.length
    countKeysSeen := st.countKeysSeen + 1
    md5 := st.md5 ++ e.key
    lastKeySeen := e.key ++ [e.rid] }

/-- The per-key update when the key equals the batch-end key: `extraStep`
plus bumping the consecutive-identical counter. -/
def extraBump (e : IxKsEntry) (st : HasherState) : HasherState :=
  { extraStep e st with nConsecutiveIdenticalIndexKeysSeenAtEnd :=
    (extraStep e st).nConsecutiveIdenticalIndexKeysSeenAtEnd + 1 }

/-- The loop of `DbCheckHasher::hashForExtraIndexKeysCheck` over the index
cursor: per key, check for interruption, apply the per-key update; when the
key equals the batch-end key, bump the consecutive-identical counter and stop
once it reaches the configured ceiling. -/
def extraLoop (intr : Nat → Bool) (maxConsec : Int) (endB : Bytes) :
    Nat → List IxKsEntry → HasherState → ExtraRun
  | _, [], st => ⟨st, RunOutcome.ok⟩
  | i, e :: rest, st =>
    if intr i then ⟨st, RunOutcome.thrown ErrorCodes.interrupted⟩
    else
      if e.key = endB then
        if (extraBump e st).nConsecutiveIdenticalIndexKeysSeenAtEnd ≥ maxConsec then
          ⟨extraBump e st, RunOutcome.ok⟩
        else extraLoop intr maxConsec endB (i + 1) rest (extraBump e st)
      else extraLoop intr maxConsec endB (i + 1) rest (extraStep e st)

/-- The stream the index cursor yields: seek to the first entry at-or-after
the batch start, stop after the last entry at-or-before the inclusive batch
end. -/
def extraCursorStream (entries : List IxKsEntry) (startB endB : Bytes) :
    List IxKsEntry :=
  (entries.dropWhile (fun e => bytesLt e.key startB)).takeWhile
    (fun e => !(bytesLt endB e.key))

/-- `DbCheckHasher::hashForExtraIndexKeysCheck`: reset the
consecutive-identical counter, run the loop over the cursor stream, and if the
whole range produced zero keys set `_lastKeySeen` to `_maxKey`.  The hasher's
`maxCount`/`maxBytes` members are not consulted anywhere in this method. -/
def DbCheckHasher.hashForExtraIndexKeysCheck (h : DbCheckHasher)
    (entries : List IxKsEntry) (intr : Nat → Bool) (maxConsec : Int)
    (startB endB : Bytes) (st0 : HasherState) : ExtraRun :=
  let r := extraLoop intr maxConsec endB 0 (extraCursorStream entries startB endB)
    { st0 with nConsecutiveIdenticalIndexKeysSeenAtEnd := 0 }
  match r.outcome with
  | RunOutcome.ok =>
    if r.st.countKeysSeen = 0 then
      { r with st := { r.st with lastKeySeen := h.maxKey } }
    else r
  | _ => r

/-- The environment one invocation of `dbCheckBatchOnSecondary` runs in: the
acquisition outcome, the catalog facts the verifier consults, the data the
hasher will scan, and the ambient logging configuration. -/
structure VerifierEnv where
  acquisitionErr : Option ErrorCodes
  collExists : Bool
  isClustered : Bool
  hasIdIndex : Bool
  secIndexFound : Bool
  cursor : List IdIndexEntry
  findRecord : RecordId → Option Record
  indexes : List SecIndex
  idxEntries : List IxKsEntry
  interruptAt : Nat → Bool
  maxConsecutive : Int
  defMaxCount : Int
  defMaxBytes : Int
  isPreImages : Bool
  isConfigImages : Bool
  isChangeColl : Bool
  cappedOpt : Bool
  batchesProcessedBefore : Nat
  healthLogEveryN : Nat
  kDebugBuild : Bool

/-- What the `try` block of `dbCheckBatchOnSecondary` produces: a returned
`Status` with the entries logged so far, or an exception escaping to the
`catch` with the entries logged before it was raised. -/
inductive TryResult
  | ret (s : Status) (logs : List LogEntry)
  | exc (c : ErrorCodes) (logs : List LogEntry)
  deriving DecidableEq

/-- The tail of the verifier after a successful hash: compare the digests
byte-for-byte, classify the severity (Info on a match; on a mismatch Warning
for the preimage/change-stream/image/capped collections, Error otherwise),
build the batch health log entry, and emit it according to the sampling
policy (always on debug builds or for non-Info entries, every Nth batch
otherwise, unless the descriptor carries an override). -/
def finishBatchLogs (env : VerifierEnv) (entry : BatchEntry)
    (st : HasherState) (logs : List LogEntry) : List LogEntry :=
  let expected := entry.expectedMd5
  let found := st.md5
  let matched : Bool := expected = found
  let severity :=
    if matched then SeverityEnum.info
    else if env.isPreImages ∨ env.isConfigImages ∨ env.isChangeColl ∨ env.cappedOpt then
      SeverityEnum.warning
    else SeverityEnum.error
  let batchLog := LogEntry.batchResult severity matched (countSeen st)
    st.bytesSeen st.nConsecutiveIdenticalIndexKeysSeenAtEnd
  let processed := env.batchesProcessedBefore + 1
  let shouldLog :=
    match entry.logBatchToHealthLog with
    | some b => b
    | none => decide (processed % env.healthLogEveryN = 0)
  if env.kDebugBuild || decide (severity ≠ SeverityEnum.info) || shouldLog then
    logs ++ [batchLog]
  else logs

/-- The tail of the extra-keys path: the hasher's exceptions escape
(`iassert`), a non-OK status is rethrown by `uassertStatusOK`, and a
successful hash proceeds to the digest comparison and batch entry. -/
def extraTail (env : VerifierEnv) (entry : BatchEntry) (r : ExtraRun) :
    TryResult :=
  match r.outcome with
  | RunOutcome.thrown c => TryResult.exc c []
  | RunOutcome.errStatus c => TryResult.exc c []
  | RunOutcome.ok => TryResult.ret none (finishBatchLogs env entry r.st [])

/-- The tail of the collection path with secondary-index parameters: the
hasher's exceptions escape, `uassertStatusOK` rethrows a non-OK status, and a
successful hash proceeds to the digest comparison and batch entry. -/
def collTail (env : VerifierEnv) (entry : BatchEntry) (rr : CollRun) :
    TryResult :=
  match rr.outcome with
  | RunOutcome.thrown c => TryResult.exc c rr.logs
  | RunOutcome.errStatus c => TryResult.exc c rr.logs
  | RunOutcome.ok => TryResult.ret none (finishBatchLogs env entry rr.st rr.logs)

/-- The tail of the collection path without secondary-index parameters: as
`collTail`, except a returned `KeyNotFound` status is logged as a
record-fetch error and converted to success before `uassertStatusOK`. -/
def collTailLegacy (env : VerifierEnv) (entry : BatchEntry) (rr : CollRun) :
    TryResult :=
  match rr.outcome with
  | RunOutcome.thrown c => TryResult.exc c rr.logs
  | RunOutcome.errStatus c =>
    if c = ErrorCodes.keyNotFound then
      TryResult.ret none (rr.logs ++ [LogEntry.recordFetchError])
    else TryResult.exc c rr.logs
  | RunOutcome.ok => TryResult.ret none (finishBatchLogs env entry rr.st rr.logs)

/-- The `try` block of `dbCheckBatchOnSecondary`: acquire (errors escape), a
vanished collection returns success after an Info entry, select the mode,
construct the hasher (which `uassert`s on a missing `_id` index for a
non-clustered collection), hash, and finish. -/
def dbCheckBatchTry (env : VerifierEnv) (entry : BatchEntry)
    (batchStart batchEnd : Bytes) : TryResult :=
  match env.acquisitionErr with
  | some c => TryResult.exc c []
  | none =>
    if ¬ env.collExists then TryResult.ret none [LogEntry.collectionGone]
    else
      match entry.params with
      | some p =>
        match p.validateMode with
        | DbCheckValidationModeEnum.extraIndexKeysCheck =>
          let h : DbCheckHasher :=
            ⟨batchEnd, env.defMaxCount, env.defMaxBytes, entry.params⟩
          if ¬ env.secIndexFound then
            TryResult.ret none [LogEntry.indexNotFoundEntry p.secondaryIndex]
          else
            extraTail env entry (h.hashForExtraIndexKeysCheck env.idxEntries
              env.interruptAt env.maxConsecutive batchStart batchEnd initState)
        | _ =>
          if ¬ env.isClustered ∧ ¬ env.hasIdIndex then
            TryResult.exc ErrorCodes.indexNotFound []
          else
            let h : DbCheckHasher :=
              ⟨batchEnd, env.defMaxCount, env.defMaxBytes, entry.params⟩
            collTail env entry (h.hashForCollectionCheck env.cursor
              env.findRecord env.indexes env.interruptAt (fun _ => false) initState)
      | none =>
        if ¬ env.isClustered ∧ ¬ env.hasIdIndex then
          TryResult.exc ErrorCodes.indexNotFound []
        else
          let h : DbCheckHasher :=
            ⟨batchEnd, env.defMaxCount, env.defMaxBytes, none⟩
          collTailLegacy env entry (h.hashForCollectionCheck env.cursor
            env.findRecord env.indexes env.interruptAt (fun _ => false) initState)

/-- `dbCheckBatchOnSecondary`: the `try` block wrapped in the `catch` that
converts any `DBException` into an Error health log entry carrying the batch
descriptor as context, returning `Status::OK()`. -/
def dbCheckBatchOnSecondary (env : VerifierEnv) (entry : BatchEntry)
    (batchStart batchEnd : Bytes) : Status × List LogEntry :=
  match dbCheckBatchTry env entry batchStart batchEnd with
  | TryResult.ret s logs => (s, logs)
  | TryResult.exc c logs => (none, logs ++ [LogEntry.verifierError c entry])

/-! ## Lemmas about `validateMissingKeys` -/

/-- One probe updates only `countKeysSeen` and `missingIndexKeys`, the latter
by appending exactly `probeResult`. -/
theorem checkOneExpectedKey_eq (idx : SecIndex) (rid : RecordId)
    (st : HasherState) (key : Bytes) :
    checkOneExpectedKey idx rid st key =
      { st with countKeysSeen := st.countKeysSeen + 1,
                missingIndexKeys := st.missingIndexKeys ++ probeResult idx rid key } := by
  unfold checkOneExpectedKey probeResult
  cases h : seekForKeyString idx.entries key with
  | none => simp
  | some e =>
    by_cases hl : e.loc ≠ rid
    · simp [hl]
    · simp [hl]

/-- Folding the probes over a list of expected keys bumps `countKeysSeen` by
the number of keys and appends the concatenated probe results. -/
theorem foldl_checkOneExpectedKey (idx : SecIndex) (rid : RecordId) :
    ∀ (keys : List Bytes) (st : HasherState),
      keys.foldl (checkOneExpectedKey idx rid) st =
        { st with countKeysSeen := st.countKeysSeen + keys.length,
                  missingIndexKeys :=
                    st.missingIndexKeys ++ (keys.map (probeResult idx rid)).flatten } := by
  intro keys
  induction keys with
  | nil => intro st; simp
  | cons k ks ih =>
    intro st
    simp only [List.foldl_cons, ih, checkOneExpectedKey_eq, List.map_cons,
      List.flatten_cons, List.length_cons, List.append_assoc]
    congr 1
    omega

/-- One index's pass updates only `countKeysSeen` and `missingIndexKeys`, the
latter by appending exactly `reportForIndex`. -/
theorem validateOneIndex_eq (doc : Record) (rid : RecordId) (st : HasherState)
    (idx : SecIndex) :
    validateOneIndex doc rid st idx =
      { st with countKeysSeen := st.countKeysSeen +
                  (if (idx.hasPartialFilter ∧ ¬ idx.filterMatches doc) ∨
                      (idx.kindTag ≠ IndexKindTag.btree ∧ idx.kindTag ≠ IndexKindTag.hashed) then 0
                   else (expectedKeyStrings idx doc rid).length),
                missingIndexKeys := st.missingIndexKeys ++ reportForIndex doc rid idx } := by
  unfold validateOneIndex reportForIndex
  by_cases h1 : idx.hasPartialFilter ∧ ¬ idx.filterMatches doc
  · rw [if_pos h1, if_pos h1, if_pos (Or.inl h1)]
    simp
  · by_cases h2 : idx.kindTag ≠ IndexKindTag.btree ∧ idx.kindTag ≠ IndexKindTag.hashed
    · rw [if_neg h1, if_pos h2, if_neg h1, if_pos h2, if_pos (Or.inr h2)]
      simp
    · have h12 : ¬ ((idx.hasPartialFilter ∧ ¬ idx.filterMatches doc) ∨
          (idx.kindTag ≠ IndexKindTag.btree ∧ idx.kindTag ≠ IndexKindTag.hashed)) := by
        tauto
      rw [if_neg h1, if_neg h2, if_neg h1, if_neg h2, if_neg h12,
        foldl_checkOneExpectedKey]

/-- The fold of `validateMissingKeys` changes only `countKeysSeen` and
`missingIndexKeys`; the report grows by the concatenated per-index reports
and `countKeysSeen` only grows. -/
theorem foldl_validateOneIndex (doc : Record) (rid : RecordId) :
    ∀ (idxs : List SecIndex) (st : HasherState),
      (idxs.foldl (validateOneIndex doc rid) st).md5 = st.md5 ∧
      (idxs.foldl (validateOneIndex doc rid) st).countDocsSeen = st.countDocsSeen ∧
      (idxs.foldl (validateOneIndex doc rid) st).bytesSeen = st.bytesSeen ∧
      (idxs.foldl (validateOneIndex doc rid) st).lastKeySeen = st.lastKeySeen ∧
      (idxs.foldl (validateOneIndex doc rid) st).nConsecutiveIdenticalIndexKeysSeenAtEnd =
        st.nConsecutiveIdenticalIndexKeysSeenAtEnd ∧
      st.countKeysSeen ≤ (idxs.foldl (validateOneIndex doc rid) st).countKeysSeen ∧
      (idxs.foldl (validateOneIndex doc rid) st).missingIndexKeys =
        st.missingIndexKeys ++ (idxs.map (reportForIndex doc rid)).flatten := by
  intro idxs
  induction idxs with
  | nil => intro st; simp
  | cons i is ih =>
    intro st
    simp only [List.foldl_cons, List.map_cons, List.flatten_cons]
    rw [validateOneIndex_eq]
    refine ⟨(ih _).1, (ih _).2.1, (ih _).2.2.1, (ih _).2.2.2.1, (ih _).2.2.2.2.1, ?_, ?_⟩
    · refine le_trans ?_ (ih _).2.2.2.2.2.1
      simp
      omega
    · rw [(ih _).2.2.2.2.2.2]
      simp [List.append_assoc]

/-- Field accounting for `validateMissingKeys` itself. -/
theorem validateMissingKeys_fields (idxs : List SecIndex) (doc : Record)
    (rid : RecordId) (st : HasherState) :
    (validateMissingKeys idxs doc rid st).1.md5 = st.md5 ∧
    (validateMissingKeys idxs doc rid st).1.countDocsSeen = st.countDocsSeen ∧
    (validateMissingKeys idxs doc rid st).1.bytesSeen = st.bytesSeen ∧
    (validateMissingKeys idxs doc rid st).1.lastKeySeen = st.lastKeySeen ∧
    (validateMissingKeys idxs doc rid st).1.nConsecutiveIdenticalIndexKeysSeenAtEnd =
      st.nConsecutiveIdenticalIndexKeysSeenAtEnd ∧
    st.countKeysSeen ≤ (validateMissingKeys idxs doc rid st).1.countKeysSeen ∧
    (validateMissingKeys idxs doc rid st).1.missingIndexKeys =
      st.missingIndexKeys ++ (idxs.map (reportForIndex doc rid)).flatten := by
  unfold validateMissingKeys
  exact foldl_validateOneIndex doc rid idxs st

/-! ## Lemmas about the collection-check scan -/

/-- Record sizes are non-negative. -/
theorem Record.size_nonneg (r : Record) : 0 ≤ r.size := Int.ofNat_nonneg _

/-- Acceptance characterisation of `_canHashForCollectionCheck`. -/
theorem canHash_iff (maxCount maxBytes : Int) (st : HasherState) (sz : Int) :
    canHashForCollectionCheck maxCount maxBytes st sz = true ↔
      (countSeen st = 0 ∨
        (st.bytesSeen + sz ≤ maxBytes ∧ countSeen st + 1 ≤ maxCount)) := by
  unfold canHashForCollectionCheck
  split_ifs with h1 h2 h3 <;> simp <;> omega

/-- Field accounting for the accepted-item update. -/
theorem processAccepted_fields (idxs : List SecIndex) (mkMode : Bool)
    (e : IdIndexEntry) (r : Record) (st : HasherState) :
    (processAccepted idxs mkMode e r st).1.md5 = st.md5 ++ r.bytes ∧
    (processAccepted idxs mkMode e r st).1.countDocsSeen = st.countDocsSeen + 1 ∧
    (processAccepted idxs mkMode e r st).1.bytesSeen = st.bytesSeen + r.size ∧
    st.countKeysSeen ≤ (processAccepted idxs mkMode e r st).1.countKeysSeen ∧
    (processAccepted idxs mkMode e r st).1.lastKeySeen = e.objId := by
  cases mkMode with
  | false => exact ⟨rfl, rfl, rfl, le_refl _, rfl⟩
  | true =>
    have h := validateMissingKeys_fields idxs r e.rid { st with missingIndexKeys := [] }
    refine ⟨?_, ?_, ?_, ?_, rfl⟩
    · show (validateMissingKeys idxs r e.rid { st with missingIndexKeys := [] }).1.md5
          ++ r.bytes = st.md5 ++ r.bytes
      rw [h.1]
    · show (validateMissingKeys idxs r e.rid { st with missingIndexKeys := [] }).1.countDocsSeen
          + 1 = st.countDocsSeen + 1
      rw [h.2.1]
    · show (validateMissingKeys idxs r e.rid { st with missingIndexKeys := [] }).1.bytesSeen
          + r.size = st.bytesSeen + r.size
      rw [h.2.2.1]
    · exact h.2.2.2.2.2.1

/-- The scan loop preserves the resource-ceiling invariant. -/
theorem collLoop_inv (fr : RecordId → Option Record) (idxs : List SecIndex)
    (intr dl : Nat → Bool) (params : Option SecondaryIndexCheckParameters)
    (maxCount maxBytes : Int) :
    ∀ (cursor : List IdIndexEntry) (i : Nat) (st : HasherState)
      (logs : List LogEntry), CollInv maxCount maxBytes st →
      CollInv maxCount maxBytes
        (collLoop fr idxs intr dl params maxCount maxBytes i cursor st logs).st := by
  intro cursor
  induction cursor with
  | nil => intro i st logs h; simpa [collLoop] using h
  | cons e rest ih =>
    intro i st logs h
    rw [collLoop]
    split
    · exact h
    · split
      · exact ih _ _ _ h
      · rename_i r heq
        split
        · exact h
        · split
          · exact h
          · rename_i hcan
            have hc : canHashForCollectionCheck maxCount maxBytes st r.size = true := by
              simpa using hcan
            rw [canHash_iff] at hc
            obtain ⟨hd0, hk0, hdm, hbm⟩ := h
            obtain ⟨pm, pd, pb, pk, -⟩ :=
              processAccepted_fields idxs (isMissingKeysMode params) e r st
            have hsz := Record.size_nonneg r
            have hmax1 := le_max_left maxCount 1
            have hmax2 := le_max_right maxCount 1
            have hinv : CollInv maxCount maxBytes (processAccepted idxs (isMissingKeysMode params) e r st).1 := by
              unfold CollInv countSeen at *
              refine ⟨by omega, by omega, ?_, ?_⟩ <;> omega
            split
            · exact hinv
            · exact ih _ _ _ hinv

/-- The count of accepted documents never decreases along the scan. -/
theorem collLoop_docs_mono (fr : RecordId → Option Record) (idxs : List SecIndex)
    (intr dl : Nat → Bool) (params : Option SecondaryIndexCheckParameters)
    (maxCount maxBytes : Int) :
    ∀ (cursor : List IdIndexEntry) (i : Nat) (st : HasherState)
      (logs : List LogEntry),
      st.countDocsSeen ≤
        (collLoop fr idxs intr dl params maxCount maxBytes i cursor st logs).st.countDocsSeen := by
  intro cursor
  induction cursor with
  | nil => intro i st logs; simp [collLoop]
  | cons e rest ih =>
    intro i st logs
    rw [collLoop]
    split
    · exact le_refl _
    · split
      · exact ih _ _ _
      · rename_i r heq
        split
        · exact le_refl _
        · split
          · exact le_refl _
          · obtain ⟨-, pd, -, -, -⟩ :=
              processAccepted_fields idxs (isMissingKeysMode params) e r st
            have hstep : st.countDocsSeen ≤
                (processAccepted idxs (isMissingKeysMode params) e r st).1.countDocsSeen := by
              omega
            split
            · exact hstep
            · exact le_trans hstep (ih _ _ _)

/-- The only outcomes of the collection scan loop: a normal `Status::OK()`
return, an interruption exception, or the missing-`_id` error status. -/
theorem collLoop_outcomes (fr : RecordId → Option Record) (idxs : List SecIndex)
    (intr dl : Nat → Bool) (params : Option SecondaryIndexCheckParameters)
    (maxCount maxBytes : Int) :
    ∀ (cursor : List IdIndexEntry) (i : Nat) (st : HasherState)
      (logs : List LogEntry),
      (collLoop fr idxs intr dl params maxCount maxBytes i cursor st logs).outcome
          = RunOutcome.ok ∨
      (collLoop fr idxs intr dl params maxCount maxBytes i cursor st logs).outcome
          = RunOutcome.thrown ErrorCodes.interrupted ∨
      (collLoop fr idxs intr dl params maxCount maxBytes i cursor st logs).outcome
          = RunOutcome.errStatus ErrorCodes.noSuchKey := by
  intro cursor
  induction cursor with
  | nil => intro i st logs; simp [collLoop]
  | cons e rest ih =>
    intro i st logs
    rw [collLoop]
    split
    · exact Or.inr (Or.inl rfl)
    · split
      · exact ih _ _ _
      · split
        · exact Or.inr (Or.inr rfl)
        · split
          · exact Or.inl rfl
          · split
            · exact Or.inl rfl
            · exact ih _ _ _

/-- With no interruption, and every backing record that exists carrying an
`_id` field, the scan loop always completes with `Status::OK()`. -/
theorem collLoop_completes (fr : RecordId → Option Record) (idxs : List SecIndex)
    (intr dl : Nat → Bool) (params : Option SecondaryIndexCheckParameters)
    (maxCount maxBytes : Int) (hintr : ∀ n, intr n = false) :
    ∀ (cursor : List IdIndexEntry),
      (∀ e r, e ∈ cursor → fr e.rid = some r → r.hasIdField = true) →
      ∀ (i : Nat) (st : HasherState) (logs : List LogEntry),
      (collLoop fr idxs intr dl params maxCount maxBytes i cursor st logs).outcome
        = RunOutcome.ok := by
  intro cursor
  induction cursor with
  | nil => intro hrec i st logs; simp [collLoop]
  | cons e rest ih =>
    intro hrec i st logs
    rw [collLoop]
    rw [if_neg (by simp [hintr i])]
    have hrest : ∀ e r, e ∈ rest → fr e.rid = some r → r.hasIdField = true := by
      intro a b ha hb
      exact hrec a b (List.mem_cons_of_mem _ ha) hb
    split
    · exact ih hrest _ _ _
    · rename_i r heq
      have hid : r.hasIdField = true := hrec e r (List.mem_cons_self _ _) heq
      rw [if_neg (by simp [hid])]
      split
      · rfl
      · split
        · rfl
        · exact ih hrest _ _ _

/-- The scan loop is oblivious to the interruption and deadline oracles as
long as neither ever fires: two runs over the same data agree exactly. -/
theorem collLoop_oracle_irrelevant (fr : RecordId → Option Record)
    (idxs : List SecIndex) (i1 d1 i2 d2 : Nat → Bool)
    (params : Option SecondaryIndexCheckParameters) (maxCount maxBytes : Int)
    (h1 : ∀ n, i1 n = false) (h2 : ∀ n, i2 n = false)
    (h3 : ∀ n, d1 n = false) (h4 : ∀ n, d2 n = false) :
    ∀ (cursor : List IdIndexEntry) (a b : Nat) (st : HasherState)
      (logs : List LogEntry),
      collLoop fr idxs i1 d1 params maxCount maxBytes a cursor st logs =
      collLoop fr idxs i2 d2 params maxCount maxBytes b cursor st logs := by
  intro cursor
  induction cursor with
  | nil => intro a b st logs; rfl
  | cons e rest ih =>
    intro a b st logs
    rw [collLoop, collLoop]
    simp only [h1 a, h2 b, h3 a, h4 b, Bool.false_eq_true, if_false]
    cases fr e.rid with
    | none => exact ih _ _ _ _
    | some r =>
      simp only
      split
      · rfl
      · split
        · rfl
        · exact ih _ _ _ _

/-- The digest stream of the scan extends the initial stream by the
concatenation of a subsequence, in cursor order, of the backing records'
bytes. -/
theorem collLoop_md5_sublist (fr : RecordId → Option Record)
    (idxs : List SecIndex) (intr dl : Nat → Bool)
    (params : Option SecondaryIndexCheckParameters) (maxCount maxBytes : Int) :
    ∀ (cursor : List IdIndexEntry) (i : Nat) (st : HasherState)
      (logs : List LogEntry),
      ∃ chunks : List Bytes, chunks.Sublist (cursorRecordBytes fr cursor) ∧
        (collLoop fr idxs intr dl params maxCount maxBytes i cursor st logs).st.md5
          = st.md5 ++ chunks.flatten := by
  intro cursor
  induction cursor with
  | nil => intro i st logs; exact ⟨[], List.nil_sublist _, by simp [collLoop]⟩
  | cons e rest ih =>
    intro i st logs
    rw [collLoop]
    split
    · exact ⟨[], by cases h : fr e.rid <;> simp [cursorRecordBytes, h, List.nil_sublist], by simp⟩
    · split
      · rename_i heq
        obtain ⟨chunks, hsub, hmd5⟩ := ih (i + 1) st (logs ++ [LogEntry.missingRecord e.rid e.objId])
        exact ⟨chunks, by simp [cursorRecordBytes, heq, hsub], hmd5⟩
      · rename_i r heq
        have hcons : cursorRecordBytes fr (e :: rest) = r.bytes :: cursorRecordBytes fr rest := by
          simp [cursorRecordBytes, heq]
        split
        · exact ⟨[], by rw [hcons]; exact List.nil_sublist _, by simp⟩
        · split
          · exact ⟨[], by rw [hcons]; exact List.nil_sublist _, by simp⟩
          · obtain ⟨pm, -, -, -, -⟩ :=
              processAccepted_fields idxs (isMissingKeysMode params) e r st
            split
            · refine ⟨[r.bytes], ?_, ?_⟩
              · rw [hcons]
                exact (List.nil_sublist _).cons₂ r.bytes
              · simp [pm]
            · obtain ⟨chunks, hsub, hmd5⟩ := ih (i + 1)
                (processAccepted idxs (isMissingKeysMode params) e r st).1
                ((if isMissingKeysMode params = true ∧ r.bsonRes ≠ BsonValidateRes.ok then
                  logs ++ [LogEntry.malformedDoc (bsonErrSeverity r.bsonRes) e.rid e.objId]
                 else logs) ++ (processAccepted idxs (isMissingKeysMode params) e r st).2)
              refine ⟨r.bytes :: chunks, ?_, ?_⟩
              · rw [hcons]
                exact hsub.cons₂ r.bytes
              · rw [hmd5, pm]
                simp

/-! ## Lemmas about the extra-index-keys scan -/

/-- The extra-keys loop is oblivious to an interruption oracle that never
fires. -/
theorem extraLoop_oracle_irrelevant (i1 i2 : Nat → Bool) (maxConsec : Int)
    (endB : Bytes) (h1 : ∀ n, i1 n = false) (h2 : ∀ n, i2 n = false) :
    ∀ (l : List IxKsEntry) (a b : Nat) (st : HasherState),
      extraLoop i1 maxConsec endB a l st = extraLoop i2 maxConsec endB b l st := by
  intro l
  induction l with
  | nil => intro a b st; rfl
  | cons e rest ih =>
    intro a b st
    rw [extraLoop, extraLoop]
    simp only [h1 a, h2 b, Bool.false_eq_true, if_false]
    split
    · split
      · rfl
      · exact ih _ _ _
    · exact ih _ _ _

/-- Field accounting for the per-key updates. -/
theorem extraStep_fields (e : IxKsEntry) (st : HasherState) :
    (extraStep e st).md5 = st.md5 ++ e.key ∧
    (extraStep e st).countKeysSeen = st.countKeysSeen + 1 ∧
    (extraStep e st).nConsecutiveIdenticalIndexKeysSeenAtEnd =
      st.nConsecutiveIdenticalIndexKeysSeenAtEnd ∧
    (extraBump e st).md5 = st.md5 ++ e.key ∧
    (extraBump e st).countKeysSeen = st.countKeysSeen + 1 ∧
    (extraBump e st).nConsecutiveIdenticalIndexKeysSeenAtEnd =
      st.nConsecutiveIdenticalIndexKeysSeenAtEnd + 1 := by
  exact ⟨rfl, rfl, rfl, rfl, rfl, rfl⟩

/-- The digest stream of the extra-keys loop extends the initial stream by
the keys of a prefix of the cursor stream, in cursor order. -/
theorem extraLoop_md5_prefix (intr : Nat → Bool) (maxConsec : Int) (endB : Bytes) :
    ∀ (l : List IxKsEntry) (i : Nat) (st : HasherState),
      ∃ n, (extraLoop intr maxConsec endB i l st).st.md5 =
        st.md5 ++ ((l.take n).map IxKsEntry.key).flatten := by
  intro l
  induction l with
  | nil => intro i st; exact ⟨0, by simp [extraLoop]⟩
  | cons e rest ih =>
    intro i st
    rw [extraLoop]
    split
    · exact ⟨0, by simp⟩
    · split
      · split
        · exact ⟨1, by simp [extraBump, extraStep]⟩
        · obtain ⟨n, hn⟩ := ih (i + 1) (extraBump e st)
          refine ⟨n + 1, ?_⟩
          rw [hn]
          simp [extraBump, extraStep]
      · obtain ⟨n, hn⟩ := ih (i + 1) (extraStep e st)
        refine ⟨n + 1, ?_⟩
        rw [hn]
        simp [extraStep]

/-- When the interruption oracle never fires and the whole stream holds
fewer batch-end-equal keys than the consecutive-identical ceiling, the
extra-keys loop consumes every entry: it returns `Status::OK()`, folds every
key into the digest in order, and counts every key. -/
theorem extraLoop_consumes_all (intr : Nat → Bool) (maxConsec : Int)
    (endB : Bytes) (hintr : ∀ n, intr n = false) :
    ∀ (l : List IxKsEntry) (i : Nat) (st : HasherState),
      ((l.filter (fun e => decide (e.key = endB))).length : Int) +
          st.nConsecutiveIdenticalIndexKeysSeenAtEnd < maxConsec →
      (extraLoop intr maxConsec endB i l st).outcome = RunOutcome.ok ∧
      (extraLoop intr maxConsec endB i l st).st.md5 =
        st.md5 ++ (l.map IxKsEntry.key).flatten ∧
      (extraLoop intr maxConsec endB i l st).st.countKeysSeen =
        st.countKeysSeen + l.length := by
  intro l
  induction l with
  | nil => intro i st h; simp [extraLoop]
  | cons e rest ih =>
    intro i st h
    rw [extraLoop]
    rw [if_neg (by simp [hintr i])]
    by_cases hk : e.key = endB
    · rw [if_pos hk]
      have hflt : (e :: rest).filter (fun e => decide (e.key = endB)) =
          e :: rest.filter (fun e => decide (e.key = endB)) := by
        simp [List.filter_cons, hk]
      rw [hflt] at h
      simp only [List.length_cons] at h
      have hlt : ¬ (extraBump e st).nConsecutiveIdenticalIndexKeysSeenAtEnd ≥ maxConsec := by
        simp only [extraBump, extraStep]
        push_cast at h ⊢
        omega
      rw [if_neg hlt]
      obtain ⟨ho, hm, hc⟩ := ih (i + 1) (extraBump e st) (by
        simp only [extraBump, extraStep]
        push_cast at h ⊢
        omega)
      refine ⟨ho, ?_, ?_⟩
      · rw [hm]
        simp [extraBump, extraStep]
      · rw [hc]
        simp only [extraBump, extraStep, List.length_cons]
        push_cast
        omega
    · rw [if_neg hk]
      have hflt : (e :: rest).filter (fun e => decide (e.key = endB)) =
          rest.filter (fun e => decide (e.key = endB)) := by
        simp [List.filter_cons, hk]
      rw [hflt] at h
      obtain ⟨ho, hm, hc⟩ := ih (i + 1) (extraStep e st) (by
        simp only [extraStep]
        omega)
      refine ⟨ho, ?_, ?_⟩
      · rw [hm]
        simp [extraStep]
      · rw [hc]
        simp only [extraStep, List.length_cons]
        push_cast
        omega

/-- Consuming a prefix of keys that differ from the batch-end key: the loop
folds and counts them in order and leaves the consecutive-identical counter
unchanged. -/
theorem extraLoop_pre (intr : Nat → Bool) (maxConsec : Int) (endB : Bytes)
    (hintr : ∀ n, intr n = false) :
    ∀ (pre rest : List IxKsEntry) (i : Nat) (st : HasherState),
      (∀ e ∈ pre, e.key ≠ endB) →
      ∃ (j : Nat) (st1 : HasherState),
        extraLoop intr maxConsec endB i (pre ++ rest) st =
          extraLoop intr maxConsec endB j rest st1 ∧
        st1.nConsecutiveIdenticalIndexKeysSeenAtEnd =
          st.nConsecutiveIdenticalIndexKeysSeenAtEnd ∧
        st1.countKeysSeen = st.countKeysSeen + pre.length ∧
        st1.md5 = st.md5 ++ (pre.map IxKsEntry.key).flatten := by
  intro pre
  induction pre with
  | nil =>
    intro rest i st hp
    exact ⟨i, st, by simp, rfl, by simp, by simp⟩
  | cons e p ih =>
    intro rest i st hp
    have hk : e.key ≠ endB := hp e (List.mem_cons_self _ _)
    rw [List.cons_append, extraLoop]
    rw [if_neg (by simp [hintr i]), if_neg hk]
    obtain ⟨j, st1, heq, hn, hc, hm⟩ := ih rest (i + 1) (extraStep e st)
      (fun a ha => hp a (List.mem_cons_of_mem _ ha))
    refine ⟨j, st1, heq, by rw [hn]; rfl, ?_, ?_⟩
    · rw [hc]
      simp only [extraStep, List.length_cons]
      push_cast
      omega
    · rw [hm]
      simp [extraStep]

/-- Consuming a run of keys all equal to the batch-end key: the run is fully
consumed up to the consecutive-identical ceiling, the counter reports the
consumed run length, and exactly the consumed copies are folded into the
digest. -/
theorem extraLoop_run_tail (intr : Nat → Bool) (maxConsec : Int) (endB : Bytes)
    (hintr : ∀ n, intr n = false) :
    ∀ (run : List IxKsEntry) (i : Nat) (st : HasherState),
      (∀ e ∈ run, e.key = endB) →
      st.nConsecutiveIdenticalIndexKeysSeenAtEnd < maxConsec →
      (extraLoop intr maxConsec endB i run st).outcome = RunOutcome.ok ∧
      (extraLoop intr maxConsec endB i run st).st.nConsecutiveIdenticalIndexKeysSeenAtEnd =
        st.nConsecutiveIdenticalIndexKeysSeenAtEnd +
          (min run.length (maxConsec - st.nConsecutiveIdenticalIndexKeysSeenAtEnd).toNat : Nat) ∧
      (extraLoop intr maxConsec endB i run st).st.countKeysSeen =
        st.countKeysSeen +
          (min run.length (maxConsec - st.nConsecutiveIdenticalIndexKeysSeenAtEnd).toNat : Nat) ∧
      (extraLoop intr maxConsec endB i run st).st.md5 =
        st.md5 ++ (List.replicate
          (min run.length (maxConsec - st.nConsecutiveIdenticalIndexKeysSeenAtEnd).toNat)
          endB).flatten := by
  intro run
  induction run with
  | nil =>
    intro i st hr hlt
    refine ⟨rfl, ?_, ?_, ?_⟩ <;> simp [extraLoop]
  | cons e r ih =>
    intro i st hr hlt
    have hk : e.key = endB := hr e (List.mem_cons_self _ _)
    rw [extraLoop]
    rw [if_neg (by simp [hintr i]), if_pos hk]
    have hbn : (extraBump e st).nConsecutiveIdenticalIndexKeysSeenAtEnd =
        st.nConsecutiveIdenticalIndexKeysSeenAtEnd + 1 := rfl
    by_cases hb : (extraBump e st).nConsecutiveIdenticalIndexKeysSeenAtEnd ≥ maxConsec
    · rw [if_pos hb]
      rw [hbn] at hb
      have hm1 : (min (e :: r).length
          (maxConsec - st.nConsecutiveIdenticalIndexKeysSeenAtEnd).toNat : Nat) = 1 := by
        simp only [List.length_cons]
        omega
      rw [hm1]
      refine ⟨rfl, ?_, ?_, ?_⟩
      · simp [extraBump, extraStep]
      · simp [extraBump, extraStep]
      · simp [extraBump, extraStep, hk]
    · rw [if_neg hb]
      rw [hbn] at hb
      obtain ⟨ho, hn, hc, hm⟩ := ih (i + 1) (extraBump e st)
        (fun a ha => hr a (List.mem_cons_of_mem _ ha))
        (by rw [hbn]; omega)
      rw [hbn] at hn hc hm
      have hsplit : (min (e :: r).length
          (maxConsec - st.nConsecutiveIdenticalIndexKeysSeenAtEnd).toNat : Nat) =
          (min r.length
            (maxConsec - (st.nConsecutiveIdenticalIndexKeysSeenAtEnd + 1)).toNat : Nat) + 1 := by
        simp only [List.length_cons]
        omega
      rw [hsplit]
      refine ⟨ho, ?_, ?_, ?_⟩
      · rw [hn]
        push_cast
        omega
      · rw [hc]
        have hck : (extraBump e st).countKeysSeen = st.countKeysSeen + 1 := rfl
        rw [hck]
        push_cast
        omega
      · rw [hm]
        have hmd : (extraBump e st).md5 = st.md5 ++ e.key := rfl
        rw [hmd, hk]
        rw [List.replicate_succ]
        simp

/-! ## Lemmas about the batch verifier -/

/-- Every `TryResult.ret` the extra-keys tail produces carries `Status::OK`. -/
theorem extraTail_ret_none (env : VerifierEnv) (entry : BatchEntry)
    (r : ExtraRun) (s : Status) (logs : List LogEntry)
    (h : extraTail env entry r = TryResult.ret s logs) : s = none := by
  unfold extraTail at h
  cases r with
  | mk st outcome =>
    cases outcome <;> simp_all

/-- Every `TryResult.ret` the collection tail produces carries `Status::OK`. -/
theorem collTail_ret_none (env : VerifierEnv) (entry : BatchEntry)
    (rr : CollRun) (s : Status) (logs : List LogEntry)
    (h : collTail env entry rr = TryResult.ret s logs) : s = none := by
  unfold collTail at h
  cases rr with
  | mk st logs2 outcome eof =>
    cases outcome <;> simp_all

/-- Every `TryResult.ret` the legacy collection tail produces carries
`Status::OK`. -/
theorem collTailLegacy_ret_none (env : VerifierEnv) (entry : BatchEntry)
    (rr : CollRun) (s : Status) (logs : List LogEntry)
    (h : collTailLegacy env entry rr = TryResult.ret s logs) : s = none := by
  unfold collTailLegacy at h
  cases rr with
  | mk st logs2 outcome eof =>
    cases outcome with
    | ok => simp_all
    | thrown c => simp_all
    | errStatus c =>
      simp only at h
      split at h <;> simp_all

/-- Every `TryResult.ret` the `try` block produces carries `Status::OK()`:
each return site in the source is literally `return Status::OK()`. -/
theorem dbCheckBatchTry_ret_none (env : VerifierEnv) (entry : BatchEntry)
    (bs be : Bytes) (s : Status) (logs : List LogEntry)
    (h : dbCheckBatchTry env entry bs be = TryResult.ret s logs) : s = none := by
  unfold dbCheckBatchTry at h
  split at h
  · simp_all
  · split at h
    · simp_all
    · split at h
      · split at h
        · split at h
          · simp_all
          · exact extraTail_ret_none _ _ _ _ _ h
        · split at h
          · simp_all
          · exact collTail_ret_none _ _ _ _ _ h
      · split at h
        · simp_all
        · exact collTailLegacy_ret_none _ _ _ _ _ h

/-- Setting `_lastKeySeen` after the loop only adjusts that field of a
`CollRun`; every other observable passes through. -/
theorem collWrap_fields (mk : Bytes) (rr : CollRun) :
    (if rr.reachedEof then { rr with st := { rr.st with lastKeySeen := mk } }
      else rr).outcome = rr.outcome ∧
    (if rr.reachedEof then { rr with st := { rr.st with lastKeySeen := mk } }
      else rr).logs = rr.logs ∧
    (if rr.reachedEof then { rr with st := { rr.st with lastKeySeen := mk } }
      else rr).st.md5 = rr.st.md5 ∧
    (if rr.reachedEof then { rr with st := { rr.st with lastKeySeen := mk } }
      else rr).st.countDocsSeen = rr.st.countDocsSeen ∧
    (if rr.reachedEof then { rr with st := { rr.st with lastKeySeen := mk } }
      else rr).st.bytesSeen = rr.st.bytesSeen ∧
    (if rr.reachedEof then { rr with st := { rr.st with lastKeySeen := mk } }
      else rr).st.countKeysSeen = rr.st.countKeysSeen := by
  rcases rr with ⟨st, logs, oc, eof⟩
  dsimp only
  split
  · exact ⟨rfl, rfl, rfl, rfl, rfl, rfl⟩
  · exact ⟨rfl, rfl, rfl, rfl, rfl, rfl⟩

/-- The EOF post-processing of `hashForCollectionCheck` only adjusts
`_lastKeySeen`; every other observable of the scan loop passes through. -/
theorem hashForCollectionCheck_fields (h : DbCheckHasher)
    (cursor : List IdIndexEntry) (fr : RecordId → Option Record)
    (idxs : List SecIndex) (intr dl : Nat → Bool) (st0 : HasherState) :
    (h.hashForCollectionCheck cursor fr idxs intr dl st0).outcome =
      (collLoop fr idxs intr dl h.params h.maxCount h.maxBytes 0 cursor st0 []).outcome ∧
    (h.hashForCollectionCheck cursor fr idxs intr dl st0).logs =
      (collLoop fr idxs intr dl h.params h.maxCount h.maxBytes 0 cursor st0 []).logs ∧
    (h.hashForCollectionCheck cursor fr idxs intr dl st0).st.md5 =
      (collLoop fr idxs intr dl h.params h.maxCount h.maxBytes 0 cursor st0 []).st.md5 ∧
    (h.hashForCollectionCheck cursor fr idxs intr dl st0).st.countDocsSeen =
      (collLoop fr idxs intr dl h.params h.maxCount h.maxBytes 0 cursor st0 []).st.countDocsSeen ∧
    (h.hashForCollectionCheck cursor fr idxs intr dl st0).st.bytesSeen =
      (collLoop fr idxs intr dl h.params h.maxCount h.maxBytes 0 cursor st0 []).st.bytesSeen ∧
    (h.hashForCollectionCheck cursor fr idxs intr dl st0).st.countKeysSeen =
      (collLoop fr idxs intr dl h.params h.maxCount h.maxBytes 0 cursor st0 []).st.countKeysSeen := by
  exact collWrap_fields h.maxKey
    (collLoop fr idxs intr dl h.params h.maxCount h.maxBytes 0 cursor st0 [])

/-- Setting `_lastKeySeen` after the extra-keys loop only adjusts that field
of an `ExtraRun`; every other observable passes through. -/
theorem extraWrap_fields (mk : Bytes) (r : ExtraRun) :
    (match r.outcome with
      | RunOutcome.ok =>
        if r.st.countKeysSeen = 0 then
          { r with st := { r.st with lastKeySeen := mk } }
        else r
      | _ => r).outcome = r.outcome ∧
    (match r.outcome with
      | RunOutcome.ok =>
        if r.st.countKeysSeen = 0 then
          { r with st := { r.st with lastKeySeen := mk } }
        else r
      | _ => r).st.md5 = r.st.md5 ∧
    (match r.outcome with
      | RunOutcome.ok =>
        if r.st.countKeysSeen = 0 then
          { r with st := { r.st with lastKeySeen := mk } }
        else r
      | _ => r).st.countKeysSeen = r.st.countKeysSeen ∧
    (match r.outcome with
      | RunOutcome.ok =>
        if r.st.countKeysSeen = 0 then
          { r with st := { r.st with lastKeySeen := mk } }
        else r
      | _ => r).st.nConsecutiveIdenticalIndexKeysSeenAtEnd =
      r.st.nConsecutiveIdenticalIndexKeysSeenAtEnd := by
  rcases r with ⟨st, oc⟩
  cases oc with
  | ok =>
    dsimp only
    split
    · exact ⟨rfl, rfl, rfl, rfl⟩
    · exact ⟨rfl, rfl, rfl, rfl⟩
  | errStatus c => exact ⟨rfl, rfl, rfl, rfl⟩
  | thrown c => exact ⟨rfl, rfl, rfl, rfl⟩

/-- The zero-keys post-processing of `hashForExtraIndexKeysCheck` only
adjusts `_lastKeySeen`; every other observable of the loop passes through. -/
theorem hashForExtraIndexKeysCheck_fields (h : DbCheckHasher)
    (entries : List IxKsEntry) (intr : Nat → Bool) (maxConsec : Int)
    (startB endB : Bytes) (st0 : HasherState) :
    (h.hashForExtraIndexKeysCheck entries intr maxConsec startB endB st0).outcome =
      (extraLoop intr maxConsec endB 0 (extraCursorStream entries startB endB)
        { st0 with nConsecutiveIdenticalIndexKeysSeenAtEnd := 0 }).outcome ∧
    (h.hashForExtraIndexKeysCheck entries intr maxConsec startB endB st0).st.md5 =
      (extraLoop intr maxConsec endB 0 (extraCursorStream entries startB endB)
        { st0 with nConsecutiveIdenticalIndexKeysSeenAtEnd := 0 }).st.md5 ∧
    (h.hashForExtraIndexKeysCheck entries intr maxConsec startB endB st0).st.countKeysSeen =
      (extraLoop intr maxConsec endB 0 (extraCursorStream entries startB endB)
        { st0 with nConsecutiveIdenticalIndexKeysSeenAtEnd := 0 }).st.countKeysSeen ∧
    (h.hashForExtraIndexKeysCheck entries intr maxConsec startB endB st0).st.nConsecutiveIdenticalIndexKeysSeenAtEnd =
      (extraLoop intr maxConsec endB 0 (extraCursorStream entries startB endB)
        { st0 with nConsecutiveIdenticalIndexKeysSeenAtEnd := 0 }).st.nConsecutiveIdenticalIndexKeysSeenAtEnd := by
  exact extraWrap_fields h.maxKey
    (extraLoop intr maxConsec endB 0 (extraCursorStream entries startB endB)
      { st0 with nConsecutiveIdenticalIndexKeysSeenAtEnd := 0 })

/-! ## The claims -/

/-- C6: during `hashForCollectionCheck`, a key present in the `_id` index
whose record is absent from the backing record store yields exactly one
non-fatal Error-severity health log entry, the item is skipped (state — hash,
counts, `lastKeySeen` — untouched), and the scan proceeds to the next key
without raising. -/
theorem c6_missing_record_skipped
    (fr : RecordId → Option Record) (idxs : List SecIndex) (intr dl : Nat → Bool)
    (params : Option SecondaryIndexCheckParameters) (maxCount maxBytes : Int)
    (i : Nat) (e : IdIndexEntry) (rest : List IdIndexEntry)
    (st : HasherState) (logs : List LogEntry)
    (hintr : intr i = false) (hmiss : fr e.rid = none) :
    collLoop fr idxs intr dl params maxCount maxBytes i (e :: rest) st logs =
      collLoop fr idxs intr dl params maxCount maxBytes (i + 1) rest st
        (logs ++ [LogEntry.missingRecord e.rid e.objId]) ∧
    (LogEntry.missingRecord e.rid e.objId).severityOf = SeverityEnum.error := by
  refine ⟨?_, rfl⟩
  rw [collLoop]
  rw [if_neg (by simp [hintr]), hmiss]

/-- Witness for C6 at a concrete input: a one-item cursor whose record id has
no backing record. -/
theorem c6_witness :
    collLoop (fun _ => none) [] (fun _ => false) (fun _ => false) none 10 10 0
        [⟨[1], 1⟩] initState [] =
      collLoop (fun _ => none) [] (fun _ => false) (fun _ => false) none 10 10 1
        [] initState ([] ++ [LogEntry.missingRecord 1 [1]]) ∧
    (LogEntry.missingRecord 1 [1]).severityOf = SeverityEnum.error :=
  c6_missing_record_skipped (fun _ => none) [] (fun _ => false) (fun _ => false)
    none 10 10 0 ⟨[1], 1⟩ [] initState [] rfl rfl

/-- C5 counterexample: the claim says a malformed document "is skipped, not
hashed".  On this input the sole document fails BSON validation
(`invalidBson`), an Error entry is emitted — and its raw bytes ARE folded
into the digest (the source has no `continue` after logging): the final md5
stream equals the malformed document's bytes and the batch completes. -/
theorem c5_counterexample :
    ((⟨[9], 100, 100,
        some ⟨DbCheckValidationModeEnum.dataConsistencyAndMissingIndexKeysCheck, "a"⟩⟩ :
          DbCheckHasher).hashForCollectionCheck [⟨[1], 1⟩]
        (fun rid => if rid = 1 then some ⟨[4, 4], true, BsonValidateRes.invalidBson⟩ else none)
        [] (fun _ => false) (fun _ => false) initState).st.md5 = [4, 4] ∧
    ((⟨[9], 100, 100,
        some ⟨DbCheckValidationModeEnum.dataConsistencyAndMissingIndexKeysCheck, "a"⟩⟩ :
          DbCheckHasher).hashForCollectionCheck [⟨[1], 1⟩]
        (fun rid => if rid = 1 then some ⟨[4, 4], true, BsonValidateRes.invalidBson⟩ else none)
        [] (fun _ => false) (fun _ => false) initState).logs =
      [LogEntry.malformedDoc SeverityEnum.error 1 [1]] ∧
    ((⟨[9], 100, 100,
        some ⟨DbCheckValidationModeEnum.dataConsistencyAndMissingIndexKeysCheck, "a"⟩⟩ :
          DbCheckHasher).hashForCollectionCheck [⟨[1], 1⟩]
        (fun rid => if rid = 1 then some ⟨[4, 4], true, BsonValidateRes.invalidBson⟩ else none)
        [] (fun _ => false) (fun _ => false) initState).outcome = RunOutcome.ok := by
  decide

/-- C5 amended: when a document's raw stored bytes fail structural BSON
validation during a collection-range hash (missing-index-keys mode), an
Error-severity health log entry is emitted (Warning for the designated
best-effort `NonConformantBSON` verdict), and the scan continues to the next
item WITH the malformed item folded into the digest — the item is hashed,
not skipped. -/
theorem c5_malformed_doc_amended
    (fr : RecordId → Option Record) (idxs : List SecIndex) (intr dl : Nat → Bool)
    (params : Option SecondaryIndexCheckParameters) (maxCount maxBytes : Int)
    (i : Nat) (e : IdIndexEntry) (rest : List IdIndexEntry)
    (st : HasherState) (logs : List LogEntry) (r : Record)
    (hintr : intr i = false) (hfr : fr e.rid = some r)
    (hmk : isMissingKeysMode params = true)
    (hbad : r.bsonRes ≠ BsonValidateRes.ok) (hid : r.hasIdField = true)
    (hcan : canHashForCollectionCheck maxCount maxBytes st r.size = true)
    (hdl : dl i = false) :
    collLoop fr idxs intr dl params maxCount maxBytes i (e :: rest) st logs =
      collLoop fr idxs intr dl params maxCount maxBytes (i + 1) rest
        (processAccepted idxs true e r st).1
        ((logs ++ [LogEntry.malformedDoc (bsonErrSeverity r.bsonRes) e.rid e.objId])
          ++ (processAccepted idxs true e r st).2) ∧
    (processAccepted idxs true e r st).1.md5 = st.md5 ++ r.bytes ∧
    (r.bsonRes = BsonValidateRes.nonConformant →
      bsonErrSeverity r.bsonRes = SeverityEnum.warning) ∧
    (r.bsonRes = BsonValidateRes.invalidBson →
      bsonErrSeverity r.bsonRes = SeverityEnum.error) := by
  refine ⟨?_, (processAccepted_fields idxs true e r st).1,
    fun hh => by rw [hh]; rfl, fun hh => by rw [hh]; rfl⟩
  rw [collLoop]
  rw [if_neg (by simp [hintr]), hfr]
  dsimp only
  rw [hmk]
  rw [if_neg (by simp [hid])]
  rw [if_neg (by simp [hcan])]
  rw [if_neg (by simp [hdl])]
  rw [if_pos ⟨rfl, hbad⟩]

/-- Witness for C5's amended claim at a concrete input: a `NonConformantBSON`
document is logged at Warning severity, folded into the digest, and the scan
continues. -/
theorem c5_witness :
    collLoop (fun _ => some ⟨[7], true, BsonValidateRes.nonConformant⟩) []
        (fun _ => false) (fun _ => false)
        (some ⟨DbCheckValidationModeEnum.dataConsistencyAndMissingIndexKeysCheck, "a"⟩)
        100 100 0 [⟨[2], 3⟩] initState [] =
      collLoop (fun _ => some ⟨[7], true, BsonValidateRes.nonConformant⟩) []
        (fun _ => false) (fun _ => false)
        (some ⟨DbCheckValidationModeEnum.dataConsistencyAndMissingIndexKeysCheck, "a"⟩)
        100 100 1 []
        (processAccepted [] true ⟨[2], 3⟩ ⟨[7], true, BsonValidateRes.nonConformant⟩ initState).1
        (([] ++ [LogEntry.malformedDoc
            (bsonErrSeverity BsonValidateRes.nonConformant) 3 [2]])
          ++ (processAccepted [] true ⟨[2], 3⟩
              ⟨[7], true, BsonValidateRes.nonConformant⟩ initState).2) ∧
    (processAccepted [] true ⟨[2], 3⟩
        ⟨[7], true, BsonValidateRes.nonConformant⟩ initState).1.md5 =
      initState.md5 ++ [7] ∧
    (BsonValidateRes.nonConformant = BsonValidateRes.nonConformant →
      bsonErrSeverity BsonValidateRes.nonConformant = SeverityEnum.warning) ∧
    (BsonValidateRes.nonConformant = BsonValidateRes.invalidBson →
      bsonErrSeverity BsonValidateRes.nonConformant = SeverityEnum.error) :=
  c5_malformed_doc_amended
    (fun _ => some ⟨[7], true, BsonValidateRes.nonConformant⟩) []
    (fun _ => false) (fun _ => false)
    (some ⟨DbCheckValidationModeEnum.dataConsistencyAndMissingIndexKeysCheck, "a"⟩)
    100 100 0 ⟨[2], 3⟩ [] initState []
    ⟨[7], true, BsonValidateRes.nonConformant⟩
    rfl rfl rfl (by decide) rfl (by decide) rfl

/-- C4 counterexample: the claim says the scan "never stops before
EOF/deadline/ceiling" because of a per-item anomaly and that "only
interruption aborts a batch early".  On this input the first record exists
but lacks an `_id` field (a per-item document anomaly), the interruption
oracle never fires, and yet the scan aborts with a `NoSuchKey` error status
before reaching the second item or EOF. -/
theorem c4_counterexample :
    ((⟨[9], 100, 100, none⟩ : DbCheckHasher).hashForCollectionCheck
        [⟨[1], 1⟩, ⟨[2], 2⟩]
        (fun rid => if rid = 1 then some ⟨[5, 5, 5], false, BsonValidateRes.ok⟩
          else if rid = 2 then some ⟨[6], true, BsonValidateRes.ok⟩ else none)
        [] (fun _ => false) (fun _ => false) initState).outcome =
      RunOutcome.errStatus ErrorCodes.noSuchKey ∧
    ((⟨[9], 100, 100, none⟩ : DbCheckHasher).hashForCollectionCheck
        [⟨[1], 1⟩, ⟨[2], 2⟩]
        (fun rid => if rid = 1 then some ⟨[5, 5, 5], false, BsonValidateRes.ok⟩
          else if rid = 2 then some ⟨[6], true, BsonValidateRes.ok⟩ else none)
        [] (fun _ => false) (fun _ => false) initState).reachedEof = false ∧
    ((⟨[9], 100, 100, none⟩ : DbCheckHasher).hashForCollectionCheck
        [⟨[1], 1⟩, ⟨[2], 2⟩]
        (fun rid => if rid = 1 then some ⟨[5, 5, 5], false, BsonValidateRes.ok⟩
          else if rid = 2 then some ⟨[6], true, BsonValidateRes.ok⟩ else none)
        [] (fun _ => false) (fun _ => false) initState).st.countDocsSeen = 0 := by
  decide

/-- C4 amended: per-item anomalies of the listed kinds (missing record,
malformed-but-`_id`-bearing document, missing index keys) are absorbed and
never abort the scan; a batch can end early only through cooperative
interruption or through a fetched record that lacks an `_id` field (which
returns a `NoSuchKey` error status). -/
theorem c4_non_abort_amended (h : DbCheckHasher) (cursor : List IdIndexEntry)
    (fr : RecordId → Option Record) (idxs : List SecIndex) (intr dl : Nat → Bool) :
    ((h.hashForCollectionCheck cursor fr idxs intr dl initState).outcome = RunOutcome.ok ∨
     (h.hashForCollectionCheck cursor fr idxs intr dl initState).outcome =
        RunOutcome.thrown ErrorCodes.interrupted ∨
     (h.hashForCollectionCheck cursor fr idxs intr dl initState).outcome =
        RunOutcome.errStatus ErrorCodes.noSuchKey) ∧
    ((∀ n, intr n = false) →
      (∀ e r, e ∈ cursor → fr e.rid = some r → r.hasIdField = true) →
      (h.hashForCollectionCheck cursor fr idxs intr dl initState).outcome = RunOutcome.ok) := by
  obtain ⟨ho, -, -, -, -, -⟩ :=
    hashForCollectionCheck_fields h cursor fr idxs intr dl initState
  constructor
  · rw [ho]
    exact collLoop_outcomes fr idxs intr dl h.params h.maxCount h.maxBytes cursor 0 initState []
  · intro hintr hrec
    rw [ho]
    exact collLoop_completes fr idxs intr dl h.params h.maxCount h.maxBytes hintr
      cursor hrec 0 initState []

/-- Witness for C4's amended claim at a concrete input: a range containing a
missing record and a malformed (but `_id`-bearing) document completes with
`Status::OK()`. -/
theorem c4_witness :
    ((⟨[9], 100, 100, none⟩ : DbCheckHasher).hashForCollectionCheck
        [⟨[1], 1⟩, ⟨[2], 2⟩]
        (fun rid => if rid = 2 then some ⟨[6], true, BsonValidateRes.invalidBson⟩ else none)
        [] (fun _ => false) (fun _ => false) initState).outcome = RunOutcome.ok :=
  (c4_non_abort_amended ⟨[9], 100, 100, none⟩ [⟨[1], 1⟩, ⟨[2], 2⟩]
      (fun rid => if rid = 2 then some ⟨[6], true, BsonValidateRes.invalidBson⟩ else none)
      [] (fun _ => false) (fun _ => false)).2
    (fun _ => rfl)
    (by
      intro e r he hr
      rcases List.mem_cons.mp he with rfl | he2
      · have h1 : (none : Option Record) = some r := hr
        cases h1
      · rcases List.mem_cons.mp he2 with rfl | he3
        · have h2 : some (⟨[6], true, BsonValidateRes.invalidBson⟩ : Record) = some r := hr
          cases h2
          rfl
        · cases he3)

/-- C3 counterexample: the claim as stated fails twice on the code.  First
run: with `maxCount = 0` the sole document is still accepted (the first-item
exception overrides the count ceiling too, not only the byte ceiling), so
the completed batch has `docsSeen = 1 > maxCount`.  Second run
(missing-index-keys mode, `maxCount = 3`, `maxBytes = 100`): after the first
document the key probes have pushed `keysSeen` to 3, and the second document
is rejected even though the claim's projected pair
`(bytesSeen + nextSize, docsSeen + 1) = (2, 2)` is within `(100, 3)` — the
code projects `docsSeen + keysSeen + 1`, not `docsSeen + 1`. -/
theorem c3_counterexample :
    (((⟨[9], 0, 100, none⟩ : DbCheckHasher).hashForCollectionCheck [⟨[1], 1⟩]
        (fun rid => if rid = 1 then some ⟨[9, 9, 9], true, BsonValidateRes.ok⟩ else none)
        [] (fun _ => false) (fun _ => false) initState).st.countDocsSeen = 1 ∧
      ((⟨[9], 0, 100, none⟩ : DbCheckHasher).hashForCollectionCheck [⟨[1], 1⟩]
        (fun rid => if rid = 1 then some ⟨[9, 9, 9], true, BsonValidateRes.ok⟩ else none)
        [] (fun _ => false) (fun _ => false) initState).outcome = RunOutcome.ok ∧
      ((⟨[9], 0, 100, none⟩ : DbCheckHasher).hashForCollectionCheck [⟨[1], 1⟩]
        (fun rid => if rid = 1 then some ⟨[9, 9, 9], true, BsonValidateRes.ok⟩ else none)
        [] (fun _ => false) (fun _ => false) initState).reachedEof = true) ∧
    (((⟨[9], 3, 100,
        some ⟨DbCheckValidationModeEnum.dataConsistencyAndMissingIndexKeysCheck, "a"⟩⟩ :
          DbCheckHasher).hashForCollectionCheck [⟨[1], 1⟩, ⟨[2], 2⟩]
        (fun rid => if rid = 1 then some ⟨[7], true, BsonValidateRes.ok⟩
          else if rid = 2 then some ⟨[8], true, BsonValidateRes.ok⟩ else none)
        [⟨"a", false, fun _ => true, IndexKindTag.btree, false,
          fun _ => [[1], [2], [3]], [⟨[1, 1], 1⟩, ⟨[2, 1], 1⟩, ⟨[3, 1], 1⟩]⟩]
        (fun _ => false) (fun _ => false) initState).st.countDocsSeen = 1 ∧
      ((⟨[9], 3, 100,
        some ⟨DbCheckValidationModeEnum.dataConsistencyAndMissingIndexKeysCheck, "a"⟩⟩ :
          DbCheckHasher).hashForCollectionCheck [⟨[1], 1⟩, ⟨[2], 2⟩]
        (fun rid => if rid = 1 then some ⟨[7], true, BsonValidateRes.ok⟩
          else if rid = 2 then some ⟨[8], true, BsonValidateRes.ok⟩ else none)
        [⟨"a", false, fun _ => true, IndexKindTag.btree, false,
          fun _ => [[1], [2], [3]], [⟨[1, 1], 1⟩, ⟨[2, 1], 1⟩, ⟨[3, 1], 1⟩]⟩]
        (fun _ => false) (fun _ => false) initState).st.countKeysSeen = 3 ∧
      ((⟨[9], 3, 100,
        some ⟨DbCheckValidationModeEnum.dataConsistencyAndMissingIndexKeysCheck, "a"⟩⟩ :
          DbCheckHasher).hashForCollectionCheck [⟨[1], 1⟩, ⟨[2], 2⟩]
        (fun rid => if rid = 1 then some ⟨[7], true, BsonValidateRes.ok⟩
          else if rid = 2 then some ⟨[8], true, BsonValidateRes.ok⟩ else none)
        [⟨"a", false, fun _ => true, IndexKindTag.btree, false,
          fun _ => [[1], [2], [3]], [⟨[1, 1], 1⟩, ⟨[2, 1], 1⟩, ⟨[3, 1], 1⟩]⟩]
        (fun _ => false) (fun _ => false) initState).st.bytesSeen = 1 ∧
      ((⟨[9], 3, 100,
        some ⟨DbCheckValidationModeEnum.dataConsistencyAndMissingIndexKeysCheck, "a"⟩⟩ :
          DbCheckHasher).hashForCollectionCheck [⟨[1], 1⟩, ⟨[2], 2⟩]
        (fun rid => if rid = 1 then some ⟨[7], true, BsonValidateRes.ok⟩
          else if rid = 2 then some ⟨[8], true, BsonValidateRes.ok⟩ else none)
        [⟨"a", false, fun _ => true, IndexKindTag.btree, false,
          fun _ => [[1], [2], [3]], [⟨[1, 1], 1⟩, ⟨[2, 1], 1⟩, ⟨[3, 1], 1⟩]⟩]
        (fun _ => false) (fun _ => false) initState).reachedEof = false) := by
  decide

/-- C3 amended: `_canHashForCollectionCheck` accepts an item exactly when
nothing has been counted yet (the first item bypasses BOTH ceilings) or when
the projected `(bytesSeen + nextSize, docsSeen + keysSeen + 1)` stays within
`(maxBytes, maxCount)`.  Consequently a completed batch holds at most
`max maxCount 1` documents, its bytes stay within `maxBytes` unless a sole
first document was accepted, and a batch over a non-empty range whose first
item has a well-formed backing record is never empty. -/
theorem c3_ceiling_respect_amended :
    (∀ (maxCount maxBytes : Int) (st : HasherState) (sz : Int),
      canHashForCollectionCheck maxCount maxBytes st sz = true ↔
        (countSeen st = 0 ∨
          (st.bytesSeen + sz ≤ maxBytes ∧ countSeen st + 1 ≤ maxCount))) ∧
    (∀ (h : DbCheckHasher) (cursor : List IdIndexEntry)
      (fr : RecordId → Option Record) (idxs : List SecIndex) (intr dl : Nat → Bool),
      (h.hashForCollectionCheck cursor fr idxs intr dl initState).st.countDocsSeen ≤
        max h.maxCount 1 ∧
      (2 ≤ (h.hashForCollectionCheck cursor fr idxs intr dl initState).st.countDocsSeen →
        (h.hashForCollectionCheck cursor fr idxs intr dl initState).st.bytesSeen ≤
          h.maxBytes)) ∧
    (∀ (h : DbCheckHasher) (e : IdIndexEntry) (rest : List IdIndexEntry)
      (fr : RecordId → Option Record) (r : Record) (idxs : List SecIndex)
      (intr dl : Nat → Bool),
      fr e.rid = some r → r.hasIdField = true → intr 0 = false →
      1 ≤ (h.hashForCollectionCheck (e :: rest) fr idxs intr dl
        initState).st.countDocsSeen) := by
  refine ⟨canHash_iff, ?_, ?_⟩
  · intro h cursor fr idxs intr dl
    have hinv0 : CollInv h.maxCount h.maxBytes initState := by
      have hmx := le_max_right h.maxCount 1
      have h0 : initState.countDocsSeen = 0 := rfl
      have h1 : initState.countKeysSeen = 0 := rfl
      exact ⟨by omega, by omega, by omega, Or.inl (by omega)⟩
    have hinv := collLoop_inv fr idxs intr dl h.params h.maxCount h.maxBytes
      cursor 0 initState [] hinv0
    obtain ⟨-, -, -, o4, o5, -⟩ :=
      hashForCollectionCheck_fields h cursor fr idxs intr dl initState
    obtain ⟨i1, i2, i3, i4⟩ := hinv
    refine ⟨by rw [o4]; exact i3, ?_⟩
    intro h2
    rw [o5]
    rw [o4] at h2
    rcases i4 with h4 | h4
    · omega
    · exact h4
  · intro h e rest fr r idxs intr dl hfr hid hintr
    obtain ⟨-, -, -, o4, -, -⟩ :=
      hashForCollectionCheck_fields h (e :: rest) fr idxs intr dl initState
    rw [o4]
    rw [collLoop]
    rw [if_neg (by simp [hintr]), hfr]
    dsimp only
    rw [if_neg (by simp [hid])]
    rw [if_neg (by
      simp [canHashForCollectionCheck, countSeen, initState])]
    have hpd := (processAccepted_fields idxs (isMissingKeysMode h.params) e r initState).2.1
    have h0 : initState.countDocsSeen = 0 := rfl
    split
    · dsimp only
      omega
    · refine le_trans ?_ (collLoop_docs_mono fr idxs intr dl h.params
        h.maxCount h.maxBytes rest _ _ _)
      omega

/-- Witness for C3's amended claim at a concrete input: a one-document range
yields a non-empty batch. -/
theorem c3_witness :
    1 ≤ ((⟨[9], 7, 100, none⟩ : DbCheckHasher).hashForCollectionCheck
        [⟨[4], 4⟩] (fun _ => some ⟨[1, 2], true, BsonValidateRes.ok⟩) []
        (fun _ => false) (fun _ => false) initState).st.countDocsSeen :=
  c3_ceiling_respect_amended.2.2 ⟨[9], 7, 100, none⟩ ⟨[4], 4⟩ []
    (fun _ => some ⟨[1, 2], true, BsonValidateRes.ok⟩)
    ⟨[1, 2], true, BsonValidateRes.ok⟩ [] (fun _ => false) (fun _ => false)
    rfl rfl rfl

/-- C8 counterexample: the claim says `lastKeySeen` is set to "a maximal
sentinel key" when zero keys are seen.  The code sets it to `_maxKey`, which
is simply the `end` key the hasher was constructed with: two zero-key runs
that differ only in that key report different values, and the value `[0]` is
strictly below the key `[1]` in the keystring order — not a maximal
sentinel. -/
theorem c8_counterexample :
    ((⟨[0], 100, 100, none⟩ : DbCheckHasher).hashForExtraIndexKeysCheck []
        (fun _ => false) 7 [0] [0] initState).st.lastKeySeen = [0] ∧
    ((⟨[5, 5], 100, 100, none⟩ : DbCheckHasher).hashForExtraIndexKeysCheck []
        (fun _ => false) 7 [0] [0] initState).st.lastKeySeen = [5, 5] ∧
    bytesLt [0] [1] = true := by
  decide

/-- C8 amended: if `hashForExtraIndexKeysCheck` sees zero keys in the whole
range, `lastKeySeen` is set to the hasher's `_maxKey`, i.e. the batch-end
key the hasher was constructed with (a maximal sentinel only when the caller
passes one). -/
theorem c8_last_key_amended (h : DbCheckHasher) (entries : List IxKsEntry)
    (intr : Nat → Bool) (maxConsec : Int) (startB endB : Bytes)
    (st0 : HasherState) (hstream : extraCursorStream entries startB endB = [])
    (hkeys : st0.countKeysSeen = 0) :
    h.hashForExtraIndexKeysCheck entries intr maxConsec startB endB st0 =
      ⟨{ st0 with nConsecutiveIdenticalIndexKeysSeenAtEnd := 0,
                  lastKeySeen := h.maxKey }, RunOutcome.ok⟩ := by
  unfold DbCheckHasher.hashForExtraIndexKeysCheck
  rw [hstream]
  rw [extraLoop]
  dsimp only
  rw [if_pos (show ({ st0 with nConsecutiveIdenticalIndexKeysSeenAtEnd := 0 } :
    HasherState).countKeysSeen = 0 from hkeys)]

/-- Witness for C8's amended claim at a concrete input: a non-empty index
whose entries all fall outside the requested range yields zero keys, and
`lastKeySeen` becomes the constructor's end key `[7]`. -/
theorem c8_witness :
    (⟨[7], 100, 100, none⟩ : DbCheckHasher).hashForExtraIndexKeysCheck
        [⟨[9], 1⟩] (fun _ => false) 7 [5] [3] initState =
      ⟨{ initState with nConsecutiveIdenticalIndexKeysSeenAtEnd := 0,
                        lastKeySeen := [7] }, RunOutcome.ok⟩ :=
  c8_last_key_amended ⟨[7], 100, 100, none⟩ [⟨[9], 1⟩] (fun _ => false) 7
    [5] [3] initState (by decide) rfl

/-- C9 counterexample: the claim says the report holds exactly those expected
keys for which no entry with the document's row-identifier exists.  On this
input the non-unique index holds only the document's second expected key
`[2] ++ [5]`; the first expected key `[1] ++ [5]` is absent, so the spec's
reading demands a report — but the seek probe for it lands on the next entry
`[2] ++ [5]`, whose row-identifier equals the document's, so the code
reports nothing and returns OK. -/
theorem c9_counterexample :
    (validateMissingKeys
        [⟨"a", false, fun _ => true, IndexKindTag.btree, false,
          fun _ => [[1], [2]], [⟨[2, 5], 5⟩]⟩]
        ⟨[1], true, BsonValidateRes.ok⟩ 5 initState).1.missingIndexKeys = [] ∧
    (validateMissingKeys
        [⟨"a", false, fun _ => true, IndexKindTag.btree, false,
          fun _ => [[1], [2]], [⟨[2, 5], 5⟩]⟩]
        ⟨[1], true, BsonValidateRes.ok⟩ 5 initState).2 = none ∧
    specMissingExpectedKeys
        ⟨"a", false, fun _ => true, IndexKindTag.btree, false,
          fun _ => [[1], [2]], [⟨[2, 5], 5⟩]⟩
        ⟨[1], true, BsonValidateRes.ok⟩ 5 = [[1, 5]] := by
  decide

/-- C9 amended: for each ready non-`_id` index, `validateMissingKeys` skips
the index if its partial-filter predicate excludes the document or its kind
is outside {Btree, Hashed}; otherwise it recomputes the document's expected
serialized keys (without trailing row-identifier for unique indexes, with it
for non-unique) and appends to the report exactly those expected keys whose
seek probe — the first index entry at-or-after the key — is absent or
carries a row-identifier different from the document's; it returns a non-OK
status if and only if the report is non-empty, and never raises for
individual misses. -/
theorem c9_validate_missing_keys_amended (idxs : List SecIndex) (doc : Record)
    (rid : RecordId) (st0 : HasherState)
    (hempty : st0.missingIndexKeys = []) :
    (validateMissingKeys idxs doc rid st0).1.missingIndexKeys =
      (idxs.map (reportForIndex doc rid)).flatten ∧
    ((validateMissingKeys idxs doc rid st0).2 = none ↔
      (idxs.map (reportForIndex doc rid)).flatten = []) ∧
    (∀ idx : SecIndex, (idx.hasPartialFilter ∧ ¬ idx.filterMatches doc) →
      reportForIndex doc rid idx = []) ∧
    (∀ idx : SecIndex,
      (idx.kindTag ≠ IndexKindTag.btree ∧ idx.kindTag ≠ IndexKindTag.hashed) →
      reportForIndex doc rid idx = []) := by
  have hm := (validateMissingKeys_fields idxs doc rid st0).2.2.2.2.2.2
  rw [hempty] at hm
  simp only [List.nil_append] at hm
  have hst : (validateMissingKeys idxs doc rid st0).2 =
      (if ((idxs.map (reportForIndex doc rid)).flatten).length > 0
        then some ErrorCodes.noSuchKey else none) := by
    unfold validateMissingKeys
    dsimp only
    rw [show (idxs.foldl (validateOneIndex doc rid) st0).missingIndexKeys =
      (idxs.map (reportForIndex doc rid)).flatten from hm]
  refine ⟨hm, ?_, ?_, ?_⟩
  · rw [hst]
    split
    · rename_i hgt
      constructor
      · intro hx; exact absurd hx (by simp)
      · intro hx
        rw [hx] at hgt
        simp at hgt
    · rename_i hng
      constructor
      · intro _
        have hz : ((idxs.map (reportForIndex doc rid)).flatten).length = 0 := by omega
        exact List.length_eq_zero.mp hz
      · intro _; rfl
  · intro idx hskip
    unfold reportForIndex
    rw [if_pos hskip]
  · intro idx hskip
    unfold reportForIndex
    by_cases h1 : idx.hasPartialFilter ∧ ¬ idx.filterMatches doc
    · rw [if_pos h1]
    · rw [if_neg h1, if_pos hskip]

/-- Witness for C9's amended claim at a concrete input: a unique index with
no entries reports the document's sole expected key and returns a non-OK
status. -/
theorem c9_witness :
    (validateMissingKeys
        [⟨"b", false, fun _ => true, IndexKindTag.hashed, true,
          fun _ => [[4]], []⟩]
        ⟨[3], true, BsonValidateRes.ok⟩ 9 initState).1.missingIndexKeys =
      (([⟨"b", false, fun _ => true, IndexKindTag.hashed, true,
          fun _ => [[4]], []⟩] : List SecIndex).map
        (reportForIndex ⟨[3], true, BsonValidateRes.ok⟩ 9)).flatten ∧
    ((validateMissingKeys
        [⟨"b", false, fun _ => true, IndexKindTag.hashed, true,
          fun _ => [[4]], []⟩]
        ⟨[3], true, BsonValidateRes.ok⟩ 9 initState).2 = none ↔
      (([⟨"b", false, fun _ => true, IndexKindTag.hashed, true,
          fun _ => [[4]], []⟩] : List SecIndex).map
        (reportForIndex ⟨[3], true, BsonValidateRes.ok⟩ 9)).flatten = []) ∧
    (∀ idx : SecIndex,
      (idx.hasPartialFilter ∧ ¬ idx.filterMatches ⟨[3], true, BsonValidateRes.ok⟩) →
      reportForIndex ⟨[3], true, BsonValidateRes.ok⟩ 9 idx = []) ∧
    (∀ idx : SecIndex,
      (idx.kindTag ≠ IndexKindTag.btree ∧ idx.kindTag ≠ IndexKindTag.hashed) →
      reportForIndex ⟨[3], true, BsonValidateRes.ok⟩ 9 idx = []) :=
  c9_validate_missing_keys_amended
    [⟨"b", false, fun _ => true, IndexKindTag.hashed, true, fun _ => [[4]], []⟩]
    ⟨[3], true, BsonValidateRes.ok⟩ 9 initState rfl

/-- C7: in extra-index-keys mode, a run of bytewise-identical keys (compared
without trailing row-identifier) sitting at the tail of the batch is fully
consumed rather than cut off mid-run, up to the configured ceiling; reaching
the ceiling truncates the run deterministically; and
`nConsecutiveIdenticalIndexKeysSeenAtEnd` reports the consumed run length
`min (run length) ceiling`. -/
theorem c7_duplicate_run_absorption (h : DbCheckHasher)
    (entries : List IxKsEntry) (intr : Nat → Bool) (maxConsec : Int)
    (startB endB : Bytes) (st0 : HasherState) (pre run : List IxKsEntry)
    (hstream : extraCursorStream entries startB endB = pre ++ run)
    (hpre : ∀ e ∈ pre, e.key ≠ endB) (hrun : ∀ e ∈ run, e.key = endB)
    (hintr : ∀ n, intr n = false) (hmc : 1 ≤ maxConsec) :
    (h.hashForExtraIndexKeysCheck entries intr maxConsec startB endB st0).outcome =
      RunOutcome.ok ∧
    (h.hashForExtraIndexKeysCheck entries intr maxConsec startB endB
        st0).st.nConsecutiveIdenticalIndexKeysSeenAtEnd =
      ((min run.length maxConsec.toNat : Nat) : Int) ∧
    (h.hashForExtraIndexKeysCheck entries intr maxConsec startB endB
        st0).st.countKeysSeen =
      st0.countKeysSeen + pre.length + ((min run.length maxConsec.toNat : Nat) : Int) ∧
    (h.hashForExtraIndexKeysCheck entries intr maxConsec startB endB st0).st.md5 =
      st0.md5 ++ (pre.map IxKsEntry.key).flatten ++
        (List.replicate (min run.length maxConsec.toNat) endB).flatten := by
  obtain ⟨f1, f2, f3, f4⟩ :=
    hashForExtraIndexKeysCheck_fields h entries intr maxConsec startB endB st0
  rw [f1, f2, f3, f4, hstream]
  obtain ⟨j, st1, heq, hn, hc, hm⟩ := extraLoop_pre intr maxConsec endB hintr
    pre run 0 { st0 with nConsecutiveIdenticalIndexKeysSeenAtEnd := 0 } hpre
  rw [heq]
  have hst1n : st1.nConsecutiveIdenticalIndexKeysSeenAtEnd = 0 := by rw [hn]
  obtain ⟨ro, rn, rc, rm⟩ := extraLoop_run_tail intr maxConsec endB hintr run j
    st1 hrun (by rw [hst1n]; omega)
  rw [hst1n] at rn rc rm
  refine ⟨ro, ?_, ?_, ?_⟩
  · rw [rn]
    push_cast
    omega
  · rw [rc, hc]
    rw [show ({ st0 with nConsecutiveIdenticalIndexKeysSeenAtEnd := 0 } :
      HasherState).countKeysSeen = st0.countKeysSeen from rfl]
    push_cast
    omega
  · rw [rm, hm]
    rw [show ({ st0 with nConsecutiveIdenticalIndexKeysSeenAtEnd := 0 } :
      HasherState).md5 = st0.md5 from rfl]
    simp only [Int.sub_zero]

/-- Witness for C7 at the spec's own scenario: sorted keys
`[1, 3, 3, 3, 4]`, range start `1`, batch end `3` (the boundary a primary
running with `maxCount = 3` would have sent), ceiling `7`: the consumed keys
are `1, 3, 3, 3` — the duplicate run is not truncated mid-run — and the
reported `nConsecutiveIdenticalIndexKeysSeenAtEnd` is `3`. -/
theorem c7_witness :
    ((⟨[3], 3, 1000, none⟩ : DbCheckHasher).hashForExtraIndexKeysCheck
        [⟨[1], 1⟩, ⟨[3], 2⟩, ⟨[3], 3⟩, ⟨[3], 4⟩, ⟨[4], 5⟩] (fun _ => false) 7
        [1] [3] initState).outcome = RunOutcome.ok ∧
    ((⟨[3], 3, 1000, none⟩ : DbCheckHasher).hashForExtraIndexKeysCheck
        [⟨[1], 1⟩, ⟨[3], 2⟩, ⟨[3], 3⟩, ⟨[3], 4⟩, ⟨[4], 5⟩] (fun _ => false) 7
        [1] [3] initState).st.nConsecutiveIdenticalIndexKeysSeenAtEnd =
      ((min ([⟨[3], 2⟩, ⟨[3], 3⟩, ⟨[3], 4⟩] : List IxKsEntry).length
        (7 : Int).toNat : Nat) : Int) ∧
    ((⟨[3], 3, 1000, none⟩ : DbCheckHasher).hashForExtraIndexKeysCheck
        [⟨[1], 1⟩, ⟨[3], 2⟩, ⟨[3], 3⟩, ⟨[3], 4⟩, ⟨[4], 5⟩] (fun _ => false) 7
        [1] [3] initState).st.countKeysSeen =
      initState.countKeysSeen + ([⟨[1], 1⟩] : List IxKsEntry).length +
        ((min ([⟨[3], 2⟩, ⟨[3], 3⟩, ⟨[3], 4⟩] : List IxKsEntry).length
          (7 : Int).toNat : Nat) : Int) ∧
    ((⟨[3], 3, 1000, none⟩ : DbCheckHasher).hashForExtraIndexKeysCheck
        [⟨[1], 1⟩, ⟨[3], 2⟩, ⟨[3], 3⟩, ⟨[3], 4⟩, ⟨[4], 5⟩] (fun _ => false) 7
        [1] [3] initState).st.md5 =
      initState.md5 ++ (([⟨[1], 1⟩] : List IxKsEntry).map IxKsEntry.key).flatten ++
        (List.replicate
          (min ([⟨[3], 2⟩, ⟨[3], 3⟩, ⟨[3], 4⟩] : List IxKsEntry).length
            (7 : Int).toNat) [3]).flatten :=
  c7_duplicate_run_absorption ⟨[3], 3, 1000, none⟩
    [⟨[1], 1⟩, ⟨[3], 2⟩, ⟨[3], 3⟩, ⟨[3], 4⟩, ⟨[4], 5⟩] (fun _ => false) 7
    [1] [3] initState [⟨[1], 1⟩] [⟨[3], 2⟩, ⟨[3], 3⟩, ⟨[3], 4⟩]
    (by decide) (by decide) (by decide) (fun _ => rfl) (by decide)

/-- C10 (implicit): `hashForExtraIndexKeysCheck` applies no
`maxCount`/`maxBytes` ceiling — its result is identical for hashers that
differ arbitrarily in those members, and (absent interruption and the
consecutive-identical-end-key ceiling) every index entry from the seek
position through the inclusive end position is folded into the digest and
counted. -/
theorem c10_no_ceiling_in_extra_keys :
    (∀ (h1 h2 : DbCheckHasher) (entries : List IxKsEntry) (intr : Nat → Bool)
      (maxConsec : Int) (startB endB : Bytes) (st0 : HasherState),
      h1.maxKey = h2.maxKey →
      h1.hashForExtraIndexKeysCheck entries intr maxConsec startB endB st0 =
        h2.hashForExtraIndexKeysCheck entries intr maxConsec startB endB st0) ∧
    (∀ (h : DbCheckHasher) (entries : List IxKsEntry) (intr : Nat → Bool)
      (maxConsec : Int) (startB endB : Bytes) (st0 : HasherState),
      (∀ n, intr n = false) →
      (((extraCursorStream entries startB endB).filter
          (fun e => decide (e.key = endB))).length : Int) < maxConsec →
      (h.hashForExtraIndexKeysCheck entries intr maxConsec startB endB st0).outcome =
        RunOutcome.ok ∧
      (h.hashForExtraIndexKeysCheck entries intr maxConsec startB endB st0).st.md5 =
        st0.md5 ++ ((extraCursorStream entries startB endB).map IxKsEntry.key).flatten ∧
      (h.hashForExtraIndexKeysCheck entries intr maxConsec startB endB
          st0).st.countKeysSeen =
        st0.countKeysSeen + (extraCursorStream entries startB endB).length) := by
  constructor
  · intro h1 h2 entries intr mc sB eB st0 hmk
    unfold DbCheckHasher.hashForExtraIndexKeysCheck
    rw [hmk]
  · intro h entries intr mc sB eB st0 hintr hlen
    obtain ⟨f1, f2, f3, -⟩ :=
      hashForExtraIndexKeysCheck_fields h entries intr mc sB eB st0
    rw [f1, f2, f3]
    have h0 : ({ st0 with nConsecutiveIdenticalIndexKeysSeenAtEnd := 0 } :
      HasherState).nConsecutiveIdenticalIndexKeysSeenAtEnd = 0 := rfl
    obtain ⟨co, cm, cc⟩ := extraLoop_consumes_all intr mc eB hintr
      (extraCursorStream entries sB eB) 0
      { st0 with nConsecutiveIdenticalIndexKeysSeenAtEnd := 0 }
      (by rw [h0]; omega)
    exact ⟨co, by rw [cm], by rw [cc]⟩

/-- Witness for C10 at a concrete input: two hashers with wildly different
`maxCount`/`maxBytes` produce the same extra-keys run. -/
theorem c10_witness :
    (⟨[6], 0, 0, none⟩ : DbCheckHasher).hashForExtraIndexKeysCheck
        [⟨[2], 1⟩, ⟨[4], 2⟩] (fun _ => false) 7 [1] [6] initState =
      (⟨[6], 1000000, 1000000, none⟩ : DbCheckHasher).hashForExtraIndexKeysCheck
        [⟨[2], 1⟩, ⟨[4], 2⟩] (fun _ => false) 7 [1] [6] initState :=
  c10_no_ceiling_in_extra_keys.1 ⟨[6], 0, 0, none⟩ ⟨[6], 1000000, 1000000, none⟩
    [⟨[2], 1⟩, ⟨[4], 2⟩] (fun _ => false) 7 [1] [6] initState rfl

/-- C1: determinism of the digest — for a fixed range and validation mode
over byte-identical data, two independent runs of the hasher
(`hashForCollectionCheck` or `hashForExtraIndexKeysCheck`) produce identical
results (the runs depend only on the scanned data, not on the interruption
or deadline oracles, as long as neither fires), and the digest stream is
built in exactly cursor/index iteration order: the collection digest extends
the initial stream by a subsequence, in cursor order, of the backing
records' bytes, and the extra-keys digest by the keys of a prefix of the
index cursor stream. -/
theorem c1_digest_determinism_and_order :
    (∀ (h : DbCheckHasher) (cursor : List IdIndexEntry)
      (fr : RecordId → Option Record) (idxs : List SecIndex)
      (i1 d1 i2 d2 : Nat → Bool) (st0 : HasherState),
      (∀ n, i1 n = false) → (∀ n, i2 n = false) →
      (∀ n, d1 n = false) → (∀ n, d2 n = false) →
      h.hashForCollectionCheck cursor fr idxs i1 d1 st0 =
        h.hashForCollectionCheck cursor fr idxs i2 d2 st0) ∧
    (∀ (h : DbCheckHasher) (entries : List IxKsEntry) (i1 i2 : Nat → Bool)
      (maxConsec : Int) (startB endB : Bytes) (st0 : HasherState),
      (∀ n, i1 n = false) → (∀ n, i2 n = false) →
      h.hashForExtraIndexKeysCheck entries i1 maxConsec startB endB st0 =
        h.hashForExtraIndexKeysCheck entries i2 maxConsec startB endB st0) ∧
    (∀ (h : DbCheckHasher) (cursor : List IdIndexEntry)
      (fr : RecordId → Option Record) (idxs : List SecIndex)
      (intr dl : Nat → Bool) (st0 : HasherState),
      ∃ chunks : List Bytes, chunks.Sublist (cursorRecordBytes fr cursor) ∧
        (h.hashForCollectionCheck cursor fr idxs intr dl st0).st.md5 =
          st0.md5 ++ chunks.flatten) ∧
    (∀ (h : DbCheckHasher) (entries : List IxKsEntry) (intr : Nat → Bool)
      (maxConsec : Int) (startB endB : Bytes) (st0 : HasherState),
      ∃ n, (h.hashForExtraIndexKeysCheck entries intr maxConsec startB endB
          st0).st.md5 =
        st0.md5 ++ (((extraCursorStream entries startB endB).take n).map
          IxKsEntry.key).flatten) := by
  refine ⟨?_, ?_, ?_, ?_⟩
  · intro h cursor fr idxs i1 d1 i2 d2 st0 hi1 hi2 hd1 hd2
    unfold DbCheckHasher.hashForCollectionCheck
    rw [collLoop_oracle_irrelevant fr idxs i1 d1 i2 d2 h.params h.maxCount
      h.maxBytes hi1 hi2 hd1 hd2 cursor 0 0 st0 []]
  · intro h entries i1 i2 mc sB eB st0 hi1 hi2
    unfold DbCheckHasher.hashForExtraIndexKeysCheck
    rw [extraLoop_oracle_irrelevant i1 i2 mc eB hi1 hi2
      (extraCursorStream entries sB eB) 0 0
      { st0 with nConsecutiveIdenticalIndexKeysSeenAtEnd := 0 }]
  · intro h cursor fr idxs intr dl st0
    obtain ⟨-, -, f3, -, -, -⟩ :=
      hashForCollectionCheck_fields h cursor fr idxs intr dl st0
    obtain ⟨chunks, hsub, hmd5⟩ := collLoop_md5_sublist fr idxs intr dl
      h.params h.maxCount h.maxBytes cursor 0 st0 []
    exact ⟨chunks, hsub, by rw [f3, hmd5]⟩
  · intro h entries intr mc sB eB st0
    obtain ⟨-, f2, -, -⟩ :=
      hashForExtraIndexKeysCheck_fields h entries intr mc sB eB st0
    obtain ⟨n, hn⟩ := extraLoop_md5_prefix intr mc eB
      (extraCursorStream entries sB eB) 0
      { st0 with nConsecutiveIdenticalIndexKeysSeenAtEnd := 0 }
    exact ⟨n, by rw [f2, hn]⟩

/-- Witness for C1 at a concrete input: two runs over byte-identical data
with different (never-firing) interruption oracles agree exactly. -/
theorem c1_witness :
    (⟨[3], 5, 5, none⟩ : DbCheckHasher).hashForCollectionCheck
        [⟨[1], 1⟩] (fun _ => some ⟨[2], true, BsonValidateRes.ok⟩) []
        (fun _ => false) (fun _ => false) initState =
      (⟨[3], 5, 5, none⟩ : DbCheckHasher).hashForCollectionCheck
        [⟨[1], 1⟩] (fun _ => some ⟨[2], true, BsonValidateRes.ok⟩) []
        (fun _ => false && true) (fun _ => false) initState :=
  c1_digest_determinism_and_order.1 ⟨[3], 5, 5, none⟩ [⟨[1], 1⟩]
    (fun _ => some ⟨[2], true, BsonValidateRes.ok⟩) []
    (fun _ => false) (fun _ => false) (fun _ => false && true) (fun _ => false)
    initState (fun _ => rfl) (fun _ => rfl) (fun _ => rfl) (fun _ => rfl)

/-- C2: the secondary-side batch verifier always returns success to its
caller — every `return` site of the `try` block is `Status::OK()`, and any
error raised during acquisition, mode selection, hashing, or digest
comparison is caught at the verifier boundary and converted into an
Error-severity health log entry carrying the batch's context. -/
theorem c2_verifier_always_ok (env : VerifierEnv) (entry : BatchEntry)
    (batchStart batchEnd : Bytes) :
    (dbCheckBatchOnSecondary env entry batchStart batchEnd).1 = none ∧
    (∀ (c : ErrorCodes) (logs : List LogEntry),
      dbCheckBatchTry env entry batchStart batchEnd = TryResult.exc c logs →
      (dbCheckBatchOnSecondary env entry batchStart batchEnd).2 =
        logs ++ [LogEntry.verifierError c entry] ∧
      (LogEntry.verifierError c entry).severityOf = SeverityEnum.error) := by
  constructor
  · unfold dbCheckBatchOnSecondary
    split
    · rename_i s logs heq
      exact dbCheckBatchTry_ret_none env entry batchStart batchEnd s logs heq
    · rfl
  · intro c logs hexc
    unfold dbCheckBatchOnSecondary
    rw [hexc]
    exact ⟨rfl, rfl⟩

/-- Witness for C2 at a concrete input: an acquisition error on the
secondary is converted into an Error health log entry carrying the batch
context, and the verifier still returns `Status::OK()`. -/
theorem c2_witness :
    (dbCheckBatchOnSecondary
        ⟨some ErrorCodes.interrupted, true, false, true, true, [],
          fun _ => none, [], [], fun _ => false, 7, 100, 100, false, false,
          false, false, 0, 4, false⟩
        ⟨[1], none, none⟩ [0] [9]).2 =
      [] ++ [LogEntry.verifierError ErrorCodes.interrupted ⟨[1], none, none⟩] ∧
    (LogEntry.verifierError ErrorCodes.interrupted
      ⟨[1], none, none⟩).severityOf = SeverityEnum.error :=
  (c2_verifier_always_ok
      ⟨some ErrorCodes.interrupted, true, false, true, true, [],
        fun _ => none, [], [], fun _ => false, 7, 100, 100, false, false,
        false, false, 0, 4, false⟩
      ⟨[1], none, none⟩ [0] [9]).2 ErrorCodes.interrupted [] rfl

end DbCheck
